import Mathlib

/-!
Verification development for the boat-race prediction pipeline
(`streamlit/app.py`): feature derivation (`prepare_df`), model selection and
threshold resolution (`MODEL_PATHS`, `extract_threshold_from_filename`),
schema alignment, and the dual-model inference dispatch.

Dataframes are embedded shallowly: a cell is a string, a rational number, or
the missing marker `na` (pandas `NaN`); a row is an association list from
column names to cells (the list order is the pandas column order, and
assigning to a fresh column appends it at the end, as pandas does); a
dataframe is a list of rows.  Machine floats are modelled by `ℚ` with exact
decimal reading; the scraped fields never contain exponent or infinity
literals, so `float`/`to_numeric` parsing is modelled as plain decimal
parsing.
-/

set_option maxRecDepth 2048

namespace BoatApp

/-- A pandas cell: a string, a (floating-point, modelled exact) number, or NaN. -/
inductive Cell where
  | str : String → Cell
  | num : ℚ → Cell
  | na  : Cell
deriving DecidableEq, Repr

/-- A dataframe row: column name to cell, in pandas column order. -/
abbrev Row := List (String × Cell)

/-- A dataframe: a list of rows (all sharing the same column list). -/
abbrev DF := List Row

/-- Does the row have the column? (`col in df.columns`) -/
def hasColRow (r : Row) (c : String) : Bool :=
  match r with
  | [] => false
  | p :: r' => decide (p.1 = c) || hasColRow r' c

/-- Does the dataframe have the column (columns are read off the first row)? -/
def hasCol (df : DF) (c : String) : Bool :=
  match df with
  | [] => false
  | r :: _ => hasColRow r c

/-- Read a cell (`df[c]`, elementwise).  An absent column reads as NaN; in the
source every access is either guarded by `col in df.columns` or made on a
column the scraped schema always provides, so the absent case never occurs on
the inputs considered here. -/
def getCell (r : Row) (c : String) : Cell :=
  match r with
  | [] => Cell.na
  | p :: r' => if p.1 = c then p.2 else getCell r' c

/-- Replace the value under column `c`, keeping its position. -/
def replaceCol (r : Row) (c : String) (v : Cell) : Row :=
  match r with
  | [] => []
  | p :: r' => if p.1 = c then (c, v) :: replaceCol r' c v else p :: replaceCol r' c v

/-- Write a cell (`df[c] = v`, elementwise): replace in place when the column
exists, append it at the end of the column list otherwise — pandas order. -/
def setCell (r : Row) (c : String) (v : Cell) : Row :=
  if hasColRow r c then replaceCol r c v else r ++ [(c, v)]

/-- Drop a column (`df.drop(columns=[c])`, `errors='ignore'`). -/
def dropColRow (r : Row) (c : String) : Row := r.filter (fun p => ¬ p.1 = c)

/-- The column list of a dataframe. -/
def colsOf (df : DF) : List String :=
  match df with
  | [] => []
  | r :: _ => r.map Prod.fst

/-! ### Numeric string parsing (python `float` / pandas `to_numeric`) -/

/-- Whitespace characters stripped by `str.strip()` / `float()`. -/
def isSpaceChar (c : Char) : Bool :=
  c = ' ' ∨ c = '\t' ∨ c = '\n' ∨ c = '\r' ∨ c = '\xa0'

/-- Strip leading and trailing whitespace. -/
def trimChars (l : List Char) : List Char :=
  ((l.dropWhile isSpaceChar).reverse.dropWhile isSpaceChar).reverse

/-- Numeric value of a digit run. -/
def digitsVal (l : List Char) : ℕ :=
  l.foldl (fun n c => 10 * n + (c.toNat - '0'.toNat)) 0

/-- Exact value of the decimal literal with integer part `a` and fractional
part `b`. -/
def decVal (a b : List Char) : ℚ :=
  (digitsVal a : ℚ) + (digitsVal b : ℚ) / (10 ^ b.length)

/-- Parse an unsigned decimal: `digits`, `digits.digits`, `digits.` or
`.digits`. -/
def parseUnsigned (l : List Char) : Option ℚ :=
  let a := l.takeWhile Char.isDigit
  let rest := l.dropWhile Char.isDigit
  match rest with
  | [] => if a = [] then none else some (digitsVal a : ℚ)
  | '.' :: rest₂ =>
    let b := rest₂.takeWhile Char.isDigit
    let rest₃ := rest₂.dropWhile Char.isDigit
    if rest₃ = [] then
      if a = [] ∧ b = [] then none else some (decVal a b)
    else none
  | _ => none

/-- Python `float(s)` / pandas `to_numeric` on a string, as an exact rational:
strip whitespace, optional sign, plain decimal literal.  (The scraped fields
contain no exponent, `inf` or `nan` literals.)  `none` models a parse failure
(`ValueError` for `float`, NaN for `errors='coerce'`). -/
def pyFloat (s : String) : Option ℚ :=
  match trimChars s.data with
  | '-' :: rest => (parseUnsigned rest).map (fun q => -q)
  | '+' :: rest => parseUnsigned rest
  | l => parseUnsigned l

/-- Remove every occurrence of a character (`str.replace(ch, '')`). -/
def removeChar (s : String) (ch : Char) : String :=
  ⟨s.data.filter (fun c => ¬ c = ch)⟩

/-- `str.strip()` on a string. -/
def stripStr (s : String) : String := ⟨trimChars s.data⟩

/-- First two characters (`.str[:2]`). -/
def firstTwo (s : String) : String := ⟨s.data.take 2⟩

/-- First maximal digit run (`.str.extract(r'(\d+)')`): the digits starting at
the first digit character, or `none` when the string has no digit. -/
def firstDigitRun (l : List Char) : Option (List Char) :=
  match l.dropWhile (fun c => ¬ c.isDigit) with
  | [] => none
  | l' => some (l'.takeWhile Char.isDigit)

/-! ### Cell-level operations -/

/-- `pd.to_numeric(·, errors='coerce')` on one cell. -/
def toNumericCell (c : Cell) : Cell :=
  match c with
  | Cell.str s =>
    match pyFloat s with
    | some q => Cell.num q
    | none => Cell.na
  | Cell.num q => Cell.num q
  | Cell.na => Cell.na

/-- `fillna(0)` on one cell. -/
def fill0 (c : Cell) : Cell :=
  match c with
  | Cell.na => Cell.num 0
  | c => c

/-- `pd.to_numeric(·, errors='coerce').fillna(0)` on one cell, fused so that
the result is always a number. -/
def numFill (c : Cell) : Cell :=
  match c with
  | Cell.str s => Cell.num ((pyFloat s).getD 0)
  | Cell.num q => Cell.num q
  | Cell.na => Cell.num 0

/-- `str(x)` for a cell (`astype(str)`).  In the pipeline this is only applied
to string cells and to the integer-valued `ラウンド` column, so non-integral
numbers need no faithful float formatting. -/
def astypeStr (c : Cell) : String :=
  match c with
  | Cell.str s => s
  | Cell.num q => if q.den = 1 then toString q.num else toString q.num ++ ".x"
  | Cell.na => "nan"

/-- NaN-propagating binary arithmetic on cells (string operands never occur at
the arithmetic steps of the pipeline: every operand column has been coerced). -/
def cellBin (f : ℚ → ℚ → ℚ) : Cell → Cell → Cell
  | Cell.num a, Cell.num b => Cell.num (f a b)
  | _, _ => Cell.na

def cAdd : Cell → Cell → Cell := cellBin (· + ·)
def cSub : Cell → Cell → Cell := cellBin (· - ·)
def cMul : Cell → Cell → Cell := cellBin (· * ·)

/-- Division on cells.  `ℚ` cannot represent the `inf` numpy produces for a
zero denominator; `1/0 = 0` here, and no claim depends on that point. -/
def cDiv : Cell → Cell → Cell := cellBin (· / ·)

/-- `(a > b).astype(int)` on cells: pandas comparisons with NaN are `False`. -/
def cGtFlag (a b : Cell) : ℚ :=
  match a, b with
  | Cell.num x, Cell.num y => if y < x then 1 else 0
  | _, _ => 0

/-! ### Feature derivation: `prepare_df` -/

/-- `{"A1": 4, "A2": 3, "B1": 2, "B2": 1}` applied with `.map(...).fillna(0)`:
any unmapped value (including a non-string cell, which maps to NaN) becomes 0. -/
def classRank (c : Cell) : ℚ :=
  match c with
  | Cell.str s =>
    if s = "A1" then 4 else if s = "A2" then 3
    else if s = "B1" then 2 else if s = "B2" then 1 else 0
  | _ => 0

/-- `{1: 1.0, 2: 0.8, 3: 0.6, 4: 0.4, 5: 0.2, 6: 0.0}` applied with
`.map(...).fillna(0.5)`. -/
def courseScoreCell (c : Cell) : Cell :=
  match c with
  | Cell.num q =>
    if q = 1 then Cell.num 1 else if q = 2 then Cell.num (4/5)
    else if q = 3 then Cell.num (3/5) else if q = 4 then Cell.num (2/5)
    else if q = 5 then Cell.num (1/5) else if q = 6 then Cell.num 0
    else Cell.num (1/2)
  | _ => Cell.num (1/2)

/-- `(1 / df["コース"].replace(0, np.nan)).fillna(0)`: lane 0 is sent to NaN,
the reciprocal of NaN is NaN, and the final `fillna` turns it into 0. -/
def courseRecip (c : Cell) : Cell :=
  match c with
  | Cell.num q => if q = 0 then Cell.num 0 else Cell.num (1/q)
  | _ => Cell.num 0

/-- `{-0.5: -1, 0.0: 0, 0.5: 1}` applied with `.map(...).fillna(0)`. -/
def tiltCat (c : Cell) : Cell :=
  match c with
  | Cell.num q =>
    if q = -(1/2) then Cell.num (-1) else if q = 0 then Cell.num 0
    else if q = 1/2 then Cell.num 1 else Cell.num 0
  | _ => Cell.num 0

/-- The rate columns cleaned in the `rate_columns` loop. -/
def rateCols : List String :=
  ["勝率_全国", "勝率_当地", "2連率_全国", "2連率_当地", "3連率_全国", "3連率_当地",
   "モーター2連率", "モーター3連率", "ボート2連率", "ボート3連率"]

/-- Basic cleanup before the age conversion: drop `名前`/`L数` and clean the
`スタート展示`/`チルト` text (`astype(str)`, remove non-breaking spaces,
`strip()`, then `to_numeric(errors='coerce')`). -/
def cleanStep (r : Row) : Row :=
  let r := dropColRow (dropColRow r "名前") "L数"
  let r := if hasColRow r "スタート展示" then
    setCell r "スタート展示"
      (toNumericCell (Cell.str (stripStr (removeChar (astypeStr (getCell r "スタート展示")) '\xa0'))))
    else r
  if hasColRow r "チルト" then
    setCell r "チルト"
      (toNumericCell (Cell.str (stripStr (removeChar (astypeStr (getCell r "チルト")) '\xa0'))))
  else r

/-- `df['年齢'] = df['年齢'].astype(str).str[:2].astype(float)` — the only
step of the derivation that can raise: `astype(float)` (unlike the
`errors='coerce'` conversions everywhere else) throws `ValueError` when the
two-character prefix is not a float literal.  `none` models the exception. -/
def ageStep (r : Row) : Option Row :=
  if hasColRow r "年齢" then
    (pyFloat (firstTwo (astypeStr (getCell r "年齢")))).map
      (fun q => setCell r "年齢" (Cell.num q))
  else some r

/-- Everything in `prepare_df` after the age conversion and before the
race-group aggregation: per-row cleaning and the single-row derived features. -/
def restStep (r : Row) : Row :=
  let r := if hasColRow r "体重" then
    setCell r "体重" (toNumericCell (Cell.str (removeChar (astypeStr (getCell r "体重")) '/'))) else r
  let r := if hasColRow r "平均ST" then
    setCell r "平均ST"
      (toNumericCell (if getCell r "平均ST" = Cell.str "-" then Cell.na else getCell r "平均ST"))
    else r
  let r := if hasColRow r "F数" then
    setCell r "F数"
      (match firstDigitRun (astypeStr (getCell r "F数")).data with
       | some d => Cell.num (digitsVal d)
       | none => Cell.num 0)
    else r
  let r := setCell r "クラスランク" (Cell.num (classRank (getCell r "クラス")))
  let r := rateCols.foldl (fun r c =>
    if hasColRow r c then
      setCell r c
        (Cell.num ((pyFloat (stripStr (removeChar (removeChar (astypeStr (getCell r c)) '%') ' '))).getD 0))
    else r) r
  let r := if hasColRow r "コース" then setCell r "コース" (numFill (getCell r "コース")) else r
  let r := if hasColRow r "モーターナンバー" then
    setCell r "モーターナンバー" (numFill (getCell r "モーターナンバー")) else r
  let r := if hasColRow r "ボートナンバー" then
    setCell r "ボートナンバー" (numFill (getCell r "ボートナンバー")) else r
  let r := setCell r "ST安定スコア" (cDiv (Cell.num 1) (cAdd (getCell r "平均ST") (Cell.num (1/100))))
  let r := setCell r "勝率_diff" (cSub (getCell r "勝率_当地") (getCell r "勝率_全国"))
  let r := setCell r "2連率_diff" (cSub (getCell r "2連率_当地") (getCell r "2連率_全国"))
  let r := setCell r "3連率_diff" (cSub (getCell r "3連率_当地") (getCell r "3連率_全国"))
  let r := setCell r "勝率総合" (cDiv (cAdd (getCell r "勝率_全国") (getCell r "勝率_当地")) (Cell.num 2))
  let r := setCell r "連対安定度" (cDiv (cAdd (getCell r "2連率_全国") (getCell r "3連率_全国")) (Cell.num 2))
  let r := setCell r "モーターパワー" (cDiv (cAdd (getCell r "モーター2連率") (getCell r "モーター3連率")) (Cell.num 2))
  let r := setCell r "ボートパワー" (cDiv (cAdd (getCell r "ボート2連率") (getCell r "ボート3連率")) (Cell.num 2))
  let r := setCell r "機力差" (cSub (getCell r "モーターパワー") (getCell r "ボートパワー"))
  let r := setCell r "総合機力" (cDiv (cAdd (getCell r "モーターパワー") (getCell r "ボートパワー")) (Cell.num 2))
  let r := setCell r "イン有利スコア" (courseScoreCell (getCell r "コース"))
  let r := setCell r "コース逆数" (courseRecip (getCell r "コース"))
  let r := setCell r "総合力スコア" (cDiv (cAdd (getCell r "勝率総合") (getCell r "総合機力")) (Cell.num 2))
  let r := setCell r "コース適応スコア" (cMul (getCell r "イン有利スコア") (getCell r "勝率_当地"))
  let r := setCell r "クラス機力スコア" (cMul (getCell r "クラスランク") (getCell r "総合機力"))
  let r := setCell r "ST勝率連動" (cMul (getCell r "ST安定スコア") (getCell r "勝率_全国"))
  let r := setCell r "体重ST比" (cDiv (getCell r "体重") (cAdd (getCell r "平均ST") (Cell.num (1/100))))
  setCell r "レースID"
    (Cell.str (astypeStr (getCell r "日") ++ "_" ++ astypeStr (getCell r "ラウンド")))

/-- The per-row part of `prepare_df`, failing exactly where the source raises. -/
def prepRow1 (r : Row) : Option Row :=
  (ageStep (cleanStep r)).map restStep

/-- The columns aggregated per race group (`agg_features`). -/
def aggFeatures : List String :=
  ["勝率_全国", "勝率_当地", "モーターパワー", "ボートパワー", "総合力スコア", "クラスランク", "平均ST"]

/-- The rows of the race group of `r`: `groupby` on the value in column `c`. -/
def groupBy (df : DF) (c : String) (r : Row) : DF :=
  df.filter (fun r' => decide (getCell r' c = getCell r c))

/-- The numeric values in column `c`: pandas aggregations skip NaN. -/
def colVals (df : DF) (c : String) : List ℚ :=
  df.filterMap (fun r =>
    match getCell r c with
    | Cell.num q => some q
    | _ => none)

/-- Group mean (NaN when the group has no numeric value). -/
def qMeanCell (l : List ℚ) : Cell :=
  match l with
  | [] => Cell.na
  | _ => Cell.num (l.sum / l.length)

/-- Group max. -/
def qMaxCell (l : List ℚ) : Cell :=
  match l with
  | [] => Cell.na
  | x :: xs => Cell.num (xs.foldl max x)

/-- Group min. -/
def qMinCell (l : List ℚ) : Cell :=
  match l with
  | [] => Cell.na
  | x :: xs => Cell.num (xs.foldl min x)

/-- `rank(method='min')` of a value within its group: 1 plus the number of
strictly smaller values. -/
def rankMinCell (vals : List ℚ) (c : Cell) : Cell :=
  match c with
  | Cell.num v => Cell.num (((vals.filter (fun w => w < v)).length : ℚ) + 1)
  | _ => Cell.na

/-- One row after the `race_stats` merge: for each aggregated feature the
columns `<feature>_mean_全体`, `<feature>_max_全体`, `<feature>_min_全体`,
appended in the `agg(['mean','max','min'])` order. -/
def addStatsRow (df : DF) (r : Row) : Row :=
  aggFeatures.foldl (fun acc c =>
    let vs := colVals (groupBy df "レースID" r) c
    let acc := setCell acc (c ++ "_mean_全体") (qMeanCell vs)
    let acc := setCell acc (c ++ "_max_全体") (qMaxCell vs)
    setCell acc (c ++ "_min_全体") (qMinCell vs)) r

/-- `df.groupby("レースID")[...].agg(['mean','max','min'])` merged back onto
every row (`merge` on the unique group key preserves row order). -/
def addStats (df : DF) : DF := df.map (addStatsRow df)

/-- The columns given opponent-mean features. -/
def oppCols : List String := ["勝率_全国", "モーターパワー", "総合力スコア"]

/-- The loop body of lines 184–189 on one row: `{col}_敵平均 :=
(mean * 6 - self) / 5` and `{col}_差 := self - {col}_敵平均`. -/
def oppColRow (c : String) (r : Row) : Row :=
  let r := setCell r (c ++ "_敵平均")
    (cDiv (cSub (cMul (getCell r (c ++ "_mean_全体")) (Cell.num 6)) (getCell r c)) (Cell.num 5))
  setCell r (c ++ "_差") (cSub (getCell r c) (getCell r (c ++ "_敵平均")))

/-- One iteration of the opponent-mean loop on the frame: guarded on the
presence of the `_mean_全体` column. -/
def oppColStep (c : String) (d : DF) : DF :=
  if hasCol d (c ++ "_mean_全体") then d.map (oppColRow c) else d

/-- The class-rank opponent block (lines 191–194) on one row: the class-rank
opponent mean and the binary class-advantage flag. -/
def classOppRow (r : Row) : Row :=
  let r := setCell r "敵平均クラスランク"
    (cDiv (cSub (cMul (getCell r "クラスランク_mean_全体") (Cell.num 6)) (getCell r "クラスランク")) (Cell.num 5))
  setCell r "クラス優位" (Cell.num (cGtFlag (getCell r "クラスランク") (getCell r "敵平均クラスランク")))

/-- Opponent-mean features: `(mean * 6 - self) / 5` and the difference to it,
then the class-rank opponent mean and the binary class-advantage flag. -/
def addOpp (df : DF) : DF :=
  let df1 := oppCols.foldl (fun d c => oppColStep c d) df
  if hasCol df1 "クラスランク_mean_全体" then df1.map classOppRow else df1

/-- The intra-race starting-exhibition features (computed only when the
column exists): fill, deviation from the race-group mean, min-method rank,
gap to the fastest, deviation from the lane-group mean, lane interaction. -/
def addExhibition (df : DF) : DF :=
  if hasCol df "スタート展示" then
    let df1 := df.map (fun r => setCell r "スタート展示" (numFill (getCell r "スタート展示")))
    let df2 := df1.map (fun r => setCell r "スタート展示_平均との差"
      (cSub (getCell r "スタート展示") (qMeanCell (colVals (groupBy df1 "レースID" r) "スタート展示"))))
    let df3 := df2.map (fun r => setCell r "スタート展示_順位"
      (rankMinCell (colVals (groupBy df2 "レースID" r) "スタート展示") (getCell r "スタート展示")))
    let df4 := df3.map (fun r => setCell r "スタート展示_最速差"
      (cSub (getCell r "スタート展示") (qMinCell (colVals (groupBy df3 "レースID" r) "スタート展示"))))
    let df5 := df4.map (fun r => setCell r "スタート展示_コース平均との差"
      (cSub (getCell r "スタート展示") (qMeanCell (colVals (groupBy df4 "コース" r) "スタート展示"))))
    df5.map (fun r => setCell r "コース_スタート展示" (cMul (getCell r "コース") (getCell r "スタート展示")))
  else df

/-- The tilt features (computed only when the column exists). -/
def addTilt (df : DF) : DF :=
  if hasCol df "チルト" then
    df.map (fun r =>
      let r := setCell r "チルト" (numFill (getCell r "チルト"))
      let r := setCell r "チルト_プラス" (Cell.num (cGtFlag (getCell r "チルト") (Cell.num 0)))
      setCell r "チルト_cat" (tiltCat (getCell r "チルト")))
  else df

/-- The two interaction features, each guarded on both columns existing. -/
def addInteractions (df : DF) : DF :=
  let df1 := if hasCol df "スタート展示" ∧ hasCol df "チルト" then
    df.map (fun r => setCell r "スタート展示_チルト" (cMul (getCell r "スタート展示") (getCell r "チルト")))
    else df
  if hasCol df1 "チルト" ∧ hasCol df1 "コース" then
    df1.map (fun r => setCell r "チルト_コース" (cMul (getCell r "チルト") (getCell r "コース")))
  else df1

/-- Final cleanup of one cell: `fillna(0)` fills NaN with 0 and the
`object → float` loop coerces every remaining string column with
`to_numeric(errors='coerce').fillna(0)`. -/
def cellFinal (c : Cell) : Cell :=
  match c with
  | Cell.na => Cell.num 0
  | Cell.str s => Cell.num ((pyFloat s).getD 0)
  | Cell.num q => Cell.num q

/-- Final cleanup of one row: drop the transient `レースID` key, then fill and
coerce every cell. -/
def finalizeRow (r : Row) : Row :=
  (dropColRow r "レースID").map (fun p => (p.1, cellFinal p.2))

/-- `Option`-valued map, `none` as soon as one element fails (the pandas
exception aborts the whole `prepare_df` call). -/
def optMap {α β : Type} (f : α → Option β) : List α → Option (List β)
  | [] => some []
  | x :: xs =>
    match f x, optMap f xs with
    | some y, some ys => some (y :: ys)
    | _, _ => none

/-- `prepare_df`: the whole feature-derivation pipeline.  `none` models the
uncaught exception from the age conversion. -/
def prepare_df (df : DF) : Option DF :=
  (optMap prepRow1 df).map (fun d =>
    (addInteractions (addTilt (addExhibition (addOpp (addStats d))))).map finalizeRow)

/-! ### Raw scraped records -/

/-- One scraped competitor record, with the exact fields and order of the
`new_df` construction (plus `日`, `ラウンド`, `スタート展示`, `チルト`, which
the scraper always appends).  All scraped values are raw strings; the lane
(`コース`) and round are the integers the scraper supplies. -/
structure RawRecord where
  name : String
  age : String
  weight : String
  classCode : String
  fCount : String
  lCount : String
  meanST : String
  winNat : String
  win2Nat : String
  win3Nat : String
  winLoc : String
  win2Loc : String
  win3Loc : String
  motorNo : String
  motor2 : String
  motor3 : String
  boatNo : String
  boat2 : String
  boat3 : String
  course : ℚ
  day : String
  round : ℚ
  startEx : String
  tilt : String
deriving DecidableEq, Repr

/-- The dataframe row of one scraped record, in column order. -/
def rawRow (x : RawRecord) : Row :=
  [("名前", Cell.str x.name), ("年齢", Cell.str x.age), ("体重", Cell.str x.weight),
   ("クラス", Cell.str x.classCode), ("F数", Cell.str x.fCount), ("L数", Cell.str x.lCount),
   ("平均ST", Cell.str x.meanST),
   ("勝率_全国", Cell.str x.winNat), ("2連率_全国", Cell.str x.win2Nat), ("3連率_全国", Cell.str x.win3Nat),
   ("勝率_当地", Cell.str x.winLoc), ("2連率_当地", Cell.str x.win2Loc), ("3連率_当地", Cell.str x.win3Loc),
   ("モーターナンバー", Cell.str x.motorNo), ("モーター2連率", Cell.str x.motor2), ("モーター3連率", Cell.str x.motor3),
   ("ボートナンバー", Cell.str x.boatNo), ("ボート2連率", Cell.str x.boat2), ("ボート3連率", Cell.str x.boat3),
   ("コース", Cell.num x.course), ("日", Cell.str x.day), ("ラウンド", Cell.num x.round),
   ("スタート展示", Cell.str x.startEx), ("チルト", Cell.str x.tilt)]

/-- Feature derivation on a batch of scraped records. -/
def derive (xs : List RawRecord) : Option DF :=
  prepare_df (xs.map rawRow)

/-! ### Model selection and threshold resolution -/

/-- `MODEL_PATHS`: venue name to the (`course_1`, `course_6`) artifact paths. -/
def MODEL_PATHS : List (String × String × String) :=
  [("桐生", ("モデル/一月用モデル/桐生1_5_78910_56位モデル_0125_0.68.txt",
            "モデル/一月用モデル/桐生6_78910_56位モデル_0125_0.64.txt")),
   ("びわこ", ("モデル/一月用モデル/びわこ1_5_78910_456位モデル_0125_0.79.txt",
              "モデル/一月用モデル/びわこ6_78910_56位モデル_0125_0.63.txt")),
   ("津", ("モデル/一月用モデル/津1_5_78910_456位モデル_0125_0.72.txt",
           "モデル/一月用モデル/津6_78910_456位モデル_0125_0.83.txt")),
   ("江戸川", ("モデル/一月用モデル/江戸川1_5_78910_456位モデル_0125_0.82.txt",
              "モデル/一月用モデル/江戸川6_78910_3456位モデル_0125_0.95.txt")),
   ("徳山", ("モデル/一月用モデル/徳山1_5_78910_56位モデル_0125_0.68.txt",
             "モデル/一月用モデル/徳山6_78910_56位モデル_0125_0.74.txt")),
   ("下関", ("モデル/一月用モデル/下関1_5_78910_56位モデル_0125_0.8.txt",
             "モデル/一月用モデル/下関6_78910_56位モデル_0125_0.53.txt")),
   ("福岡", ("モデル/一月用モデル/福岡1_5_78910_456位モデル_0125_0.76.txt",
             "モデル/一月用モデル/福岡6_78910_456位モデル_0125_0.82.txt"))]

/-- Lookup in `MODEL_PATHS` (`venue_name in MODEL_PATHS` and indexing). -/
def modelPathsFor (v : String) : Option (String × String) :=
  (MODEL_PATHS.find? (fun p => p.1 = v)).map Prod.snd

/-- `os.path.basename`, reversed: the characters after the last `/`, in
reverse order (the threshold pattern is matched from the end of the name). -/
def revBasenameChars (l : List Char) : List Char :=
  l.reverse.takeWhile (fun c => ¬ c = '/')

/-- The match of `re.search(r'_(\d+\.\d+)\.txt$', filename)`, on the reversed
basename.  A successful search must end at the end of the string and the
captured group contains no underscore, so the pattern matches exactly when the
name ends in `.txt` preceded by `<digits>.<digits>` preceded by `_`; the
result is the captured (integer-part, fraction-part) digit runs. -/
def threshMatch (rev : List Char) : Option (List Char × List Char) :=
  if rev.take 4 = ['t', 'x', 't', '.'] then
    let rest := rev.drop 4
    let b := rest.takeWhile Char.isDigit
    let rest₂ := rest.dropWhile Char.isDigit
    if b = [] then none else
    match rest₂ with
    | c₅ :: rest₃ =>
      if c₅ = '.' then
        let a := rest₃.takeWhile Char.isDigit
        let rest₄ := rest₃.dropWhile Char.isDigit
        if a = [] then none else
        match rest₄ with
        | c₆ :: _ => if c₆ = '_' then some (a.reverse, b.reverse) else none
        | [] => none
      else none
    | [] => none
  else none

/-- Threshold extraction on the path's character list: `os.path.basename`,
then the regex search, then `float(...)` of the captured group or the 0.5
default with a warning. -/
def extractThresholdChars (l : List Char) : ℚ × Bool :=
  match threshMatch (revBasenameChars l) with
  | some (a, b) => (decVal a b, false)
  | none => (1/2, true)

/-- `extract_threshold_from_filename`: the threshold and whether the
default-0.5 warning (`st.warning`) was emitted.  The function never raises. -/
def extract_threshold_from_filename (filePath : String) : ℚ × Bool :=
  extractThresholdChars filePath.data

/-! ### Schema alignment -/

/-- Lines 753–768: `missing_columns` (required but absent) are appended with
`np.nan`, in the required order; `extra_columns` (present but not required)
are dropped.  Both lists are computed from the incoming table. -/
def align (required : List String) (df : DF) : DF :=
  ((required.filter (fun c => ¬ hasCol df c)).foldl
      (fun d c => d.map (fun r => setCell r c Cell.na)) df).map
    (fun r => ((colsOf df).filter (fun c => ¬ required.contains c)).foldl dropColRow r)

/-! ### Inference dispatch -/

/-- `test_df6 = test_df[test_df['コース'] == 6]` (line 783): the lane-6 slice,
taken before any prediction column is attached. -/
def course6Subset (df : DF) : DF :=
  df.filter (fun r => decide (getCell r "コース" = Cell.num 6))

/-- `pred > threshold` binarized to 1/0 — strictly greater only. -/
def binFlag (score threshold : ℚ) : ℚ :=
  if threshold < score then 1 else 0

/-- Attach one model's outputs: the raw score column and the binarized flag
column, appended for every row of the scored table. -/
def attachRow (score : Row → ℚ) (threshold : ℚ) (numCol flagCol : String) (r : Row) : Row :=
  setCell (setCell r numCol (Cell.num (score r))) flagCol (Cell.num (binFlag (score r) threshold))

/-- `bst.predict(df)` followed by the two column assignments, row-wise. -/
def attachPreds (score : Row → ℚ) (threshold : ℚ) (numCol flagCol : String) (df : DF) : DF :=
  df.map (attachRow score threshold numCol flagCol)

/-- A loaded model artifact is just its scoring function; the filesystem maps
an artifact path to `none` when the file is missing (`lgb.Booster` raises,
caught by the surrounding `except`). -/
abbrev FileSystem := String → Option (Row → ℚ)

/-- The `try` block of lines 793–851: score `test_df` with the `course_1`
model when nonempty, then `test_df6` with the `course_6` model when nonempty.
A missing artifact raises out of the block, keeping every mutation made so
far; the `Bool` result records whether the exception handler ran. -/
def inferBlock (fs : FileSystem) (p1 p6 : String) (df df6 : DF) : DF × DF × Bool :=
  if df.isEmpty then
    if df6.isEmpty then (df, df6, false)
    else
      match fs p6 with
      | none => (df, df6, true)
      | some s6 =>
        (df, attachPreds s6 (extract_threshold_from_filename p6).1 "6号艇着外予測数値" "6号艇着外予測" df6, false)
  else
    match fs p1 with
    | none => (df, df6, true)
    | some s1 =>
      let df' := attachPreds s1 (extract_threshold_from_filename p1).1 "1_5号艇着外予測数値" "1_5号艇着外予測" df
      if df6.isEmpty then (df', df6, false)
      else
        match fs p6 with
        | none => (df', df6, true)
        | some s6 =>
          (df', attachPreds s6 (extract_threshold_from_filename p6).1 "6号艇着外予測数値" "6号艇着外予測" df6, false)

/-- Pandas `concat(axis=0)` on tables with possibly different columns: the
result's columns are the first table's followed by the second's new ones, and
every row is reindexed to that list with NaN in absent columns. -/
def reindexRow (cols : List String) (r : Row) : Row :=
  cols.map (fun c => (c, if hasColRow r c then getCell r c else Cell.na))

def unionCols (a b : DF) : List String :=
  colsOf a ++ (colsOf b).filter (fun c => ¬ (colsOf a).contains c)

def pdConcat (a b : DF) : DF :=
  let cs := unionCols a b
  a.map (reindexRow cs) ++ b.map (reindexRow cs)

/-- The signal the presentation layer receives from the model section. -/
inductive Signal where
  | ok : Signal
  | modelLoadError : Signal
  | unsupportedVenue : String → Signal
  | noVenueSelected : Signal
deriving DecidableEq, Repr

/-- Lines 783–870: slice the lane-6 subset, run the model block for the
selected venue (or warn and skip when the venue is not registered, or no venue
is selected), then reassemble `pd.concat([test_df[0:5], test_df6])` whenever
the `日` and `ラウンド` columns are present. -/
def runInference (fs : FileSystem) (venue : Option String) (test_df : DF) : DF × Signal :=
  let df6 := course6Subset test_df
  let (dfA, df6A, sig) :=
    match venue with
    | some v =>
      match modelPathsFor v with
      | some (p1, p6) =>
        let (a, b, err) := inferBlock fs p1 p6 test_df df6
        (a, b, if err then Signal.modelLoadError else Signal.ok)
      | none => (test_df, df6, Signal.unsupportedVenue v)
    | none => (test_df, df6, Signal.noVenueSelected)
  if hasCol dfA "日" ∧ hasCol dfA "ラウンド" then
    (pdConcat (dfA.take 5) df6A, sig)
  else (dfA, sig)

/-! ### Concrete fixtures used by witnesses and counterexamples -/

/-- A well-formed scraped record (values in the shapes the site produces). -/
def xrC : RawRecord :=
  { name := "選手A", age := "26歳", weight := "52.0", classCode := "A1", fCount := "F0", lCount := "L0",
    meanST := "0.16", winNat := "5.50", win2Nat := "40.0", win3Nat := "55.0",
    winLoc := "6.00", win2Loc := "45.0", win3Loc := "60.0",
    motorNo := "10", motor2 := "35.0", motor3 := "50.0", boatNo := "20", boat2 := "30.0", boat3 := "45.0",
    course := 1, day := "09", round := 5, startEx := "6.80", tilt := "0.0" }

/-- A record whose age text has an unparsable two-character prefix. -/
def xrBadAgeC : RawRecord := { xrC with age := "歳歳" }

/-- A record with unparsable weight text (and a good age). -/
def xrBadWeightC : RawRecord := { xrC with weight := "kg" }

/-- The record of `xrC` placed in lane `i`. -/
def xrLaneC (i : ℚ) : RawRecord := { xrC with course := i }

/-- A minimal aligned feature row in lane `i`. -/
def laneRowC (i : ℚ) : Row :=
  [("日", Cell.str "09"), ("ラウンド", Cell.num 5), ("コース", Cell.num i)]

/-- A minimal aligned 6-row feature table, lanes 1–6 in order. -/
def dfLanesC : DF :=
  [laneRowC 1, laneRowC 2, laneRowC 3, laneRowC 4, laneRowC 5, laneRowC 6]

/-- A concrete scoring function (reads the lane). -/
def scoreLaneC : Row → ℚ := fun r =>
  match getCell r "コース" with
  | Cell.num q => q / 10
  | _ => 0

/-- A filesystem holding both artifacts. -/
def fsBothC : FileSystem := fun _ => some scoreLaneC

/-- A filesystem where only the lane-6 artifact file exists. -/
def fsOnly6C : FileSystem := fun p => if p = "P6" then some scoreLaneC else none

/-- A filesystem where only the lanes-1-to-5 artifact file exists. -/
def fsOnly1C : FileSystem := fun p => if p = "P1" then some scoreLaneC else none

/-- The feature table of the schema-alignment example: columns `{A, C, D}`. -/
def dfAlignC : DF := [[("A", Cell.num 1), ("C", Cell.num 2), ("D", Cell.num 3)]]

/-! ### Definitions used to state the opponent-mean claim -/

/-- Is the cell a number? -/
def Cell.isNum : Cell → Bool
  | Cell.num _ => true
  | _ => false

/-- The row transformation the opponent-mean block (lines 184–194) applies to
every row once the `race_stats` merge has put the `_mean_全体` columns in
place: `(mean * 6 - self) / 5` per tracked column, the difference to it, the
class-rank opponent mean and the class-advantage flag. -/
def oppRowFun (r : Row) : Row :=
  classOppRow (oppColRow "総合力スコア" (oppColRow "モーターパワー" (oppColRow "勝率_全国" r)))

/-- The opponent-mean identity at one column pair, over a derived table `D` of
one race group: the self column holds six numbers, and for every row,
`group_mean * 6 = self + 5 * opponent_mean` exactly. -/
def OppIdentity (D : DF) (selfCol oppCol : String) : Prop :=
  (colVals D selfCol).length = 6 ∧
  ∀ r ∈ D, ∃ s o, getCell r selfCol = Cell.num s ∧ getCell r oppCol = Cell.num o ∧
    ((colVals D selfCol).sum / 6) * 6 = s + 5 * o

/-- The opponent-delta column equals self minus the opponent mean, rowwise. -/
def OppDelta (D : DF) (selfCol oppCol deltaCol : String) : Prop :=
  ∀ r ∈ D, ∃ s o, getCell r selfCol = Cell.num s ∧ getCell r oppCol = Cell.num o ∧
    getCell r deltaCol = Cell.num (s - o)

/-- The four (self, opponent-mean) column pairs of the opponent block. -/
def oppPairs : List (String × String) :=
  [("勝率_全国", "勝率_全国_敵平均"), ("モーターパワー", "モーターパワー_敵平均"),
   ("総合力スコア", "総合力スコア_敵平均"), ("クラスランク", "敵平均クラスランク")]

/-- A concrete 6-record race batch (lanes 1–6, one race group). -/
def batchC7 : List RawRecord :=
  [xrLaneC 1, xrLaneC 2, xrLaneC 3, xrLaneC 4, xrLaneC 5, xrLaneC 6]

/-- The concrete per-row derived table of `batchC7` (before aggregation). -/
def PC7 : DF := (optMap prepRow1 (batchC7.map rawRow)).getD []

/-- The concrete final derived table of `batchC7`. -/
def DC7 : DF :=
  (addInteractions (addTilt (addExhibition (addOpp (addStats PC7))))).map finalizeRow

/-- A row transformation that only writes the listed columns: outside them it
changes no cell and drops no column. -/
def RowWritesOnly (f : Row → Row) (cols : List String) : Prop :=
  ∀ (r : Row) (c : String), ¬ c ∈ cols →
    getCell (f r) c = getCell r c ∧ (hasColRow r c = true → hasColRow (f r) c = true)

/-- A dataframe transformation that acts rowwise and only writes the listed
columns. -/
def PreservesOut (F : DF → DF) (cols : List String) : Prop :=
  ∀ df : DF, ∃ f : Row → Row, F df = df.map f ∧ RowWritesOnly f cols

/-- The columns the starting-exhibition block writes. -/
def exhibCols : List String :=
  ["スタート展示", "スタート展示_平均との差", "スタート展示_順位",
   "スタート展示_最速差", "スタート展示_コース平均との差", "コース_スタート展示"]

/-- The columns the tilt block writes. -/
def tiltCols : List String := ["チルト", "チルト_プラス", "チルト_cat"]

/-- The columns the interaction block writes. -/
def interCols : List String := ["スタート展示_チルト", "チルト_コース"]

/-! ## Helper lemmas -/

theorem getCell_replaceCol_self (r : Row) (c : String) (v : Cell) (h : hasColRow r c = true) :
    getCell (replaceCol r c v) c = v := by
  induction r with
  | nil => simp [hasColRow] at h
  | cons p r ih =>
    by_cases hp : p.1 = c
    · simp [replaceCol, getCell, hp]
    · simp only [hasColRow, List.any_cons, Bool.or_eq_true, decide_eq_true_eq] at h
      rcases h with h | h

      · exact absurd h hp
      · simp [replaceCol, getCell, hp, ih h]

theorem getCell_replaceCol_ne (r : Row) (c c' : String) (v : Cell) (h : ¬ c' = c) :
    getCell (replaceCol r c v) c' = getCell r c' := by
  induction r with
  | nil => simp [replaceCol]
  | cons p r ih =>
    by_cases hp : p.1 = c
    · have : ¬ c = c' := fun hh => h hh.symm
      simp [replaceCol, getCell, hp, this, ih]
    · simp only [replaceCol, if_neg hp, getCell]
      by_cases hpc : p.1 = c'
      · simp [hpc]
      · simp [hpc, ih]

theorem getCell_append_single_self (r : Row) (c : String) (v : Cell)
    (h : hasColRow r c = false) :
    getCell (r ++ [(c, v)]) c = v := by
  induction r with
  | nil => simp [getCell]
  | cons p r ih =>
    simp only [hasColRow, Bool.or_eq_false_iff, decide_eq_false_iff_not] at h
    simp [getCell, h.1, ih h.2]

theorem getCell_append_single_ne (r : Row) (c c' : String) (v : Cell) (h : ¬ c' = c) :
    getCell (r ++ [(c, v)]) c' = getCell r c' := by
  induction r with
  | nil =>
    have hcc : ¬ c = c' := fun hh => h hh.symm
    simp [getCell, hcc]
  | cons p r ih =>
    by_cases hpc : p.1 = c'
    · simp [getCell, hpc]
    · simp [getCell, hpc, ih]

/-- Writing column `c` makes reading `c` give the written value. -/
theorem getCell_setCell_self (r : Row) (c : String) (v : Cell) :
    getCell (setCell r c v) c = v := by
  unfold setCell
  by_cases h : hasColRow r c
  · simp [h, getCell_replaceCol_self r c v h]
  · simp only [h]
    simp [getCell_append_single_self r c v (by simp [h])]

/-- Writing column `c` leaves reading any other column unchanged. -/
theorem getCell_setCell_ne (r : Row) (c c' : String) (v : Cell) (h : ¬ c' = c) :
    getCell (setCell r c v) c' = getCell r c' := by
  unfold setCell
  by_cases hc : hasColRow r c
  · simp [hc, getCell_replaceCol_ne r c c' v h]
  · simp [hc, getCell_append_single_ne r c c' v h]

/-- Replacing a column's value keeps the key list. -/
theorem keys_replaceCol (r : Row) (c : String) (v : Cell) :
    (replaceCol r c v).map Prod.fst = r.map Prod.fst := by
  induction r with
  | nil => rfl
  | cons p r ih =>
    by_cases hp : p.1 = c
    · simp [replaceCol, hp, ih]
    · simp [replaceCol, hp, ih]

/-- The keys after writing column `c`. -/
theorem keys_setCell (r : Row) (c : String) (v : Cell) :
    (setCell r c v).map Prod.fst =
      (if hasColRow r c then r.map Prod.fst else r.map Prod.fst ++ [c]) := by
  unfold setCell
  by_cases h : hasColRow r c
  · simp [h, keys_replaceCol]
  · simp [h]

/-- Key presence is key-list membership. -/
theorem hasColRow_iff_mem (r : Row) (c : String) :
    hasColRow r c = true ↔ c ∈ r.map Prod.fst := by
  induction r with
  | nil => simp [hasColRow]
  | cons p r ih =>
    simp only [hasColRow, Bool.or_eq_true, decide_eq_true_eq, List.map_cons, List.mem_cons, ih]
    constructor
    · rintro (h | h)
      · exact Or.inl h.symm
      · exact Or.inr h
    · rintro (h | h)
      · exact Or.inl h.symm
      · exact Or.inr h

/-- Key presence after writing a column. -/
theorem hasColRow_setCell_iff (r : Row) (c c' : String) (v : Cell) :
    hasColRow (setCell r c v) c' = true ↔ (hasColRow r c' = true ∨ c' = c) := by
  by_cases h : hasColRow r c = true
  · rw [hasColRow_iff_mem, keys_setCell, if_pos h, ← hasColRow_iff_mem]
    constructor
    · exact Or.inl
    · rintro (hh | rfl)
      · exact hh
      · exact h
  · rw [hasColRow_iff_mem, keys_setCell, if_neg h, List.mem_append, ← hasColRow_iff_mem]
    simp [or_comm]

theorem optMap_isSome {α β : Type} (f : α → Option β) (xs : List α) :
    (optMap f xs).isSome = true ↔ ∀ x ∈ xs, (f x).isSome = true := by
  induction xs with
  | nil => simp [optMap]
  | cons x xs ih =>
    cases hx : f x <;> cases hxs : optMap f xs <;>
      simp_all [optMap, Option.isSome]

theorem optMap_eq_some {α β : Type} (f : α → Option β) (x : α) (y : β) :
    f x = some y → optMap f [x] = some [y] := by
  intro h
  simp [optMap, h]

/-- Every cell survives the final cleanup as a number. -/
theorem cellFinal_isNum (c : Cell) : ∃ q, cellFinal c = Cell.num q := by
  cases c
  · exact ⟨_, rfl⟩
  · exact ⟨_, rfl⟩
  · exact ⟨_, rfl⟩

/-! ## Claim C8 — strict binarization -/

/-- C8: binarization is strict.  The flag column the dispatcher attaches
(`(pred > threshold).astype(int)`) holds 1 exactly when the raw score strictly
exceeds the resolved threshold, and a score exactly equal to the threshold
yields flag 0. -/
theorem C8_binarization_strict (score : Row → ℚ) (t : ℚ) (ncol fcol : String) (r : Row) :
    (getCell (attachRow score t ncol fcol r) fcol = Cell.num 1 ↔ t < score r)
    ∧ (score r = t → getCell (attachRow score t ncol fcol r) fcol = Cell.num 0) := by
  unfold attachRow
  rw [getCell_setCell_self]
  constructor
  · unfold binFlag
    by_cases h : t < score r
    · simp [h]
    · simp only [h, if_neg, ite_false, iff_false]
      intro hc
      have : (0 : ℚ) = 1 := by injection hc
      exact absurd this (by norm_num)
  · intro h
    simp [binFlag, h]

/-- C8 witness: at a score exactly equal to the threshold the flag is 0. -/
theorem C8_witness :
    getCell (attachRow (fun _ => (1:ℚ)/2) ((1:ℚ)/2) "1_5号艇着外予測数値" "1_5号艇着外予測" [])
      "1_5号艇着外予測" = Cell.num 0 :=
  (C8_binarization_strict (fun _ => (1:ℚ)/2) ((1:ℚ)/2) "1_5号艇着外予測数値" "1_5号艇着外予測" []).2 rfl

/-! ## Claim C9 — unsupported venue -/

/-- C9: a venue not registered in `MODEL_PATHS` produces the explicit
unsupported-venue warning, and the inference block never runs: the output
table is the untouched input, reassembled, independent of what models exist on
disk — no default or wrong-venue model scores the race. -/
theorem C9_unsupported_venue (fs : FileSystem) (v : String) (df : DF)
    (h : modelPathsFor v = none) :
    runInference fs (some v) df =
      ((if hasCol df "日" ∧ hasCol df "ラウンド" then
          pdConcat (df.take 5) (course6Subset df) else df),
       Signal.unsupportedVenue v) := by
  unfold runInference
  simp only [h]
  by_cases hc : hasCol df "日" = true ∧ hasCol df "ラウンド" = true
  · simp [hc]
  · simp [hc]

/-- C9 witness: venue 戸田 is scraped by the shell but has no registered
model; inference is skipped even though the filesystem holds artifacts. -/
theorem C9_witness :
    runInference fsBothC (some "戸田") dfLanesC =
      (pdConcat (dfLanesC.take 5) (course6Subset dfLanesC), Signal.unsupportedVenue "戸田") := by
  rw [C9_unsupported_venue fsBothC "戸田" dfLanesC rfl, if_pos ⟨rfl, rfl⟩]

/-! ## Claim C2 — missing artifact handling -/

/-- C2 counterexample: with the lanes-1-to-5 artifact file missing and the
lane-6 artifact present, the dispatcher produces no lane-6 predictions at all
(the exception aborts the whole `try` block before the lane-6 model is
reached), contradicting the claim that the other lane-group still gets its
predictions whenever its artifact is available. -/
theorem C2_counterexample :
    (fsOnly6C "P6").isSome = true
    ∧ hasCol (inferBlock fsOnly6C "P1" "P6" dfLanesC (course6Subset dfLanesC)).2.1 "6号艇着外予測" = false
    ∧ (inferBlock fsOnly6C "P1" "P6" dfLanesC (course6Subset dfLanesC)).2.2 = true := by
  refine ⟨?_, ?_, ?_⟩ <;> with_unfolding_all decide

/-- C2 amended: a missing artifact signals the error, but skipping is
asymmetric.  If the lanes-1-to-5 artifact is missing the block aborts before
the lane-6 model is attempted, so neither lane-group gets predictions; if only
the lane-6 artifact is missing, the lanes-1-to-5 predictions already attached
survive and only the lane-6 group is skipped. -/
theorem C2_amended (fs : FileSystem) (p1 p6 : String) (df df6 : DF) :
    (df ≠ [] → fs p1 = none → inferBlock fs p1 p6 df df6 = (df, df6, true))
    ∧ (df ≠ [] → df6 ≠ [] → ∀ s1, fs p1 = some s1 → fs p6 = none →
        inferBlock fs p1 p6 df df6 =
          (attachPreds s1 (extract_threshold_from_filename p1).1
             "1_5号艇着外予測数値" "1_5号艇着外予測" df, df6, true)) := by
  constructor
  · intro hdf h1
    simp [inferBlock, hdf, h1]
  · intro hdf hdf6 s1 h1 h6
    simp [inferBlock, hdf, hdf6, h1, h6]

/-- C2 witness: with only the lanes-1-to-5 artifact on disk, its predictions
are attached, the lane-6 subset is left unscored, and the error is signalled. -/
theorem C2_witness :
    inferBlock fsOnly1C "P1" "P6" dfLanesC (course6Subset dfLanesC) =
      (attachPreds scoreLaneC (extract_threshold_from_filename "P1").1
         "1_5号艇着外予測数値" "1_5号艇着外予測" dfLanesC,
       course6Subset dfLanesC, true) :=
  (C2_amended fsOnly1C "P1" "P6" dfLanesC (course6Subset dfLanesC)).2
    (by with_unfolding_all decide) (by with_unfolding_all decide) scoreLaneC rfl rfl

/-! ## Claim C6 — no missing value survives derivation -/

/-- C6: whenever `prepare_df` returns, every field of every returned row is a
number — neither NaN nor a leftover string survives the final
`fillna(0)` / object-coercion cleanup. -/
theorem C6_no_missing_after_derive (xs : List RawRecord) (D : DF)
    (h : derive xs = some D) :
    ∀ r ∈ D, ∀ p ∈ r, ∃ q, p.2 = Cell.num q := by
  unfold derive prepare_df at h
  cases hopt : optMap prepRow1 (xs.map rawRow) with
  | none => rw [hopt] at h; simp at h
  | some d =>
    rw [hopt] at h
    simp only [Option.map_some'] at h
    injection h with h
    subst h
    intro r hr p hp
    rcases List.mem_map.mp hr with ⟨r0, _, rfl⟩
    unfold finalizeRow at hp
    rcases List.mem_map.mp hp with ⟨p0, _, rfl⟩
    exact cellFinal_isNum p0.2

/-- C6 witness: a concrete derivation run where every field is a number. -/
theorem C6_witness :
    ∃ D, derive [xrC] = some D ∧ ∀ r ∈ D, ∀ p ∈ r, ∃ q, p.2 = Cell.num q := by
  have hs : (derive [xrC]).isSome = true := by with_unfolding_all decide
  exact ⟨(derive [xrC]).get hs, (Option.some_get hs).symm,
    C6_no_missing_after_derive [xrC] _ (Option.some_get hs).symm⟩

/-! ## Claim C4 — schema alignment -/

theorem hasColRow_append (r s : Row) (c : String) :
    hasColRow (r ++ s) c = (hasColRow r c || hasColRow s c) := by
  induction r with
  | nil => simp [hasColRow]
  | cons p r ih => simp [hasColRow, ih, Bool.or_assoc]

theorem foldl_map_set (ms : List String) (df : DF) :
    ms.foldl (fun d c => d.map (fun r => setCell r c Cell.na)) df
      = df.map (fun r => ms.foldl (fun r c => setCell r c Cell.na) r) := by
  induction ms generalizing df with
  | nil => simp
  | cons c ms ih =>
    simp only [List.foldl_cons]
    rw [ih, List.map_map]
    rfl

theorem foldl_setCell_fresh (ms : List String) (r : Row)
    (hfresh : ∀ c ∈ ms, hasColRow r c = false) (hnd : ms.Nodup) :
    ms.foldl (fun r c => setCell r c Cell.na) r = r ++ ms.map (fun c => (c, Cell.na)) := by
  induction ms generalizing r with
  | nil => simp
  | cons c ms ih =>
    have hc : hasColRow r c = false := hfresh c (List.mem_cons_self c ms)
    simp only [List.foldl_cons]
    have hset : setCell r c Cell.na = r ++ [(c, Cell.na)] := by
      unfold setCell
      simp [hc]
    rw [hset, ih]
    · simp
    · intro c' hc'
      rw [hasColRow_append]
      have h1 : hasColRow r c' = false := hfresh c' (List.mem_cons_of_mem c hc')
      have h2 : ¬ c = c' := by
        intro hh
        subst hh
        exact (List.nodup_cons.mp hnd).1 hc'
      simp [h1, hasColRow, h2]
    · exact (List.nodup_cons.mp hnd).2

theorem foldl_dropColRow_eq_filter (ex : List String) (r : Row) :
    ex.foldl dropColRow r = r.filter (fun p => ¬ ex.contains p.1) := by
  induction ex generalizing r with
  | nil => simp
  | cons c ex ih =>
    simp only [List.foldl_cons]
    rw [ih]
    unfold dropColRow
    rw [List.filter_filter]
    apply List.filter_congr
    intro p _
    by_cases h1 : p.1 = c <;> simp [h1, List.contains_cons]

/-- C4 (amended): schema alignment inserts each required-but-absent column
with NaN (not 0) and drops each non-required column, but the column order sent
to the scorer is the feature table's surviving order followed by the inserted
missing columns (in artifact order) — not the artifact's declared order. -/
theorem C4_schema_alignment_amended (required : List String) (df : DF)
    (hnd : required.Nodup)
    (hw : ∀ r ∈ df, r.map Prod.fst = colsOf df) :
    align required df = df.map (fun r =>
      r.filter (fun p => required.contains p.1)
      ++ (required.filter (fun c => ¬ hasCol df c)).map (fun c => (c, Cell.na))) := by
  unfold align
  rw [foldl_map_set, List.map_map]
  apply List.map_congr_left
  intro r hr
  simp only [Function.comp]
  have hfr : ∀ c ∈ required.filter (fun c => ¬ hasCol df c), hasColRow r c = false := by
    intro c hc
    rcases List.mem_filter.mp hc with ⟨-, hc2⟩
    simp only [decide_eq_true_eq] at hc2
    cases hr' : hasColRow r c
    · rfl
    · exfalso
      apply hc2
      have hmem : c ∈ colsOf df := by
        rw [← hw r hr]
        exact (hasColRow_iff_mem r c).mp hr'
      cases df with
      | nil => simp at hr
      | cons r0 df' =>
        show hasColRow r0 c = true
        rw [hasColRow_iff_mem]
        exact hmem
  rw [foldl_setCell_fresh _ r hfr (hnd.filter _), foldl_dropColRow_eq_filter,
    List.filter_append]
  congr 1
  · apply List.filter_congr
    intro p hp
    have hmem : p.1 ∈ colsOf df := by
      rw [← hw r hr]
      exact List.mem_map_of_mem Prod.fst hp
    by_cases hreq : p.1 ∈ required <;>
      simp [List.contains, List.elem_eq_mem, List.mem_filter, hreq, hmem]
  · apply List.filter_eq_self.mpr
    intro p hp
    rcases List.mem_map.mp hp with ⟨c, hc, rfl⟩
    rcases List.mem_filter.mp hc with ⟨hcreq, -⟩
    simp [List.contains, List.elem_eq_mem, List.mem_filter, hcreq]

/-- C4 claim counterexample: with required columns `{A, B, C}` and table
columns `{A, C, D}` the aligned column order is `[A, C, B]`, not the
artifact's declared `[A, B, C]`. -/
theorem C4_claim_counterexample :
    colsOf (align ["A", "B", "C"] dfAlignC) = ["A", "C", "B"]
    ∧ ¬ colsOf (align ["A", "B", "C"] dfAlignC) = ["A", "B", "C"] := by
  constructor <;> with_unfolding_all decide

/-- C4 witness: the example table aligned — B inserted as NaN, D dropped. -/
theorem C4_witness :
    align ["A", "B", "C"] dfAlignC =
      [[("A", Cell.num 1), ("C", Cell.num 2), ("B", Cell.na)]] := by
  rw [C4_schema_alignment_amended ["A", "B", "C"] dfAlignC (by decide)
    (by intro r hr; simp only [dfAlignC, List.mem_singleton] at hr; subst hr; decide)]
  with_unfolding_all decide

/-! ## Claim C3 — threshold extraction -/

theorem takeWhile_append_all {α : Type} (p : α → Bool) (l₁ l₂ : List α)
    (h : ∀ c ∈ l₁, p c = true) :
    (l₁ ++ l₂).takeWhile p = l₁ ++ l₂.takeWhile p := by
  induction l₁ with
  | nil => simp
  | cons c l ih =>
    rw [List.cons_append, List.takeWhile_cons_of_pos (h c (List.mem_cons_self c l)),
      ih (fun c' hc' => h c' (List.mem_cons_of_mem c hc')), List.cons_append]

theorem dropWhile_append_all {α : Type} (p : α → Bool) (l₁ l₂ : List α)
    (h : ∀ c ∈ l₁, p c = true) :
    (l₁ ++ l₂).dropWhile p = l₂.dropWhile p := by
  induction l₁ with
  | nil => simp
  | cons c l ih =>
    rw [List.cons_append, List.dropWhile_cons_of_pos (h c (List.mem_cons_self c l)),
      ih (fun c' hc' => h c' (List.mem_cons_of_mem c hc'))]

theorem ne_slash_of_digit {c : Char} (h : c.isDigit = true) : ¬ c = '/' := by
  intro hh
  subst hh
  exact absurd h (by decide)

/-- `os.path.basename` commutes with appending a slash-free suffix. -/
theorem revBasenameChars_append (pre X : List Char) (hX : ∀ c ∈ X, ¬ c = '/') :
    revBasenameChars (pre ++ X) =
      X.reverse ++ pre.reverse.takeWhile (fun c => ¬ c = '/') := by
  unfold revBasenameChars
  rw [List.reverse_append]
  exact takeWhile_append_all _ _ _
    (fun c hc => decide_eq_true (hX c (List.mem_reverse.mp hc)))

/-- The regex pattern matches a name ending in `_<digits>.<digits>.txt`. -/
theorem threshMatch_success (tail a b : List Char)
    (ha : ¬ a = []) (hb : ¬ b = [])
    (hda : ∀ c ∈ a, c.isDigit = true) (hdb : ∀ c ∈ b, c.isDigit = true) :
    threshMatch ('t' :: 'x' :: 't' :: '.' :: (b.reverse ++ '.' :: (a.reverse ++ '_' :: tail)))
      = some (a, b) := by
  have hdbr : ∀ c ∈ b.reverse, c.isDigit = true := fun c hc => hdb c (List.mem_reverse.mp hc)
  have hdar : ∀ c ∈ a.reverse, c.isDigit = true := fun c hc => hda c (List.mem_reverse.mp hc)
  have hbr : ¬ b.reverse = [] := by simp [hb]
  have har : ¬ a.reverse = [] := by simp [ha]
  unfold threshMatch
  have hcond : List.take 4 ('t' :: 'x' :: 't' :: '.' ::
      (b.reverse ++ '.' :: (a.reverse ++ '_' :: tail))) = ['t', 'x', 't', '.'] := rfl
  rw [if_pos hcond]
  have hdrop : (('t' :: 'x' :: 't' :: '.' ::
      (b.reverse ++ '.' :: (a.reverse ++ '_' :: tail))).drop 4)
      = b.reverse ++ '.' :: (a.reverse ++ '_' :: tail) := rfl
  rw [hdrop]
  have e1 : List.takeWhile Char.isDigit (b.reverse ++ '.' :: (a.reverse ++ '_' :: tail))
      = b.reverse := by
    rw [takeWhile_append_all _ _ _ hdbr, List.takeWhile_cons_of_neg (by decide), List.append_nil]
  have e2 : List.dropWhile Char.isDigit (b.reverse ++ '.' :: (a.reverse ++ '_' :: tail))
      = '.' :: (a.reverse ++ '_' :: tail) := by
    rw [dropWhile_append_all _ _ _ hdbr, List.dropWhile_cons_of_neg (by decide)]
  have e3 : List.takeWhile Char.isDigit (a.reverse ++ '_' :: tail) = a.reverse := by
    rw [takeWhile_append_all _ _ _ hdar, List.takeWhile_cons_of_neg (by decide), List.append_nil]
  have e4 : List.dropWhile Char.isDigit (a.reverse ++ '_' :: tail) = '_' :: tail := by
    rw [dropWhile_append_all _ _ _ hdar, List.dropWhile_cons_of_neg (by decide)]
  simp [e1, e2, e3, e4, hbr, har]

/-- The regex pattern fails when the name does not end in `.txt`. -/
theorem threshMatch_none (l : List Char) (h : ¬ l.take 4 = ['t', 'x', 't', '.']) :
    threshMatch l = none := by
  unfold threshMatch
  rw [if_neg h]

/-- A dot-free extension other than `txt` cannot produce the `.txt` tail. -/
theorem take4_ne_pattern (e R : List Char)
    (hdot : ∀ c ∈ e, ¬ c = '.') (hne : ¬ e = ['t', 'x', 't']) :
    ¬ (e ++ '.' :: R).take 4 = ['t', 'x', 't', '.'] := by
  cases e with
  | nil =>
    intro h
    have ht : List.take 4 ('.' :: R) = '.' :: List.take 3 R := rfl
    rw [List.nil_append, ht] at h
    injection h with h1 h2
    exact absurd h1 (by decide)
  | cons c₁ e =>
    cases e with
    | nil =>
      intro h
      have ht : List.take 4 (c₁ :: '.' :: R) = c₁ :: '.' :: List.take 2 R := rfl
      simp only [List.cons_append, List.nil_append] at h
      rw [ht] at h
      injection h with h1 h
      injection h with h2 h
      exact absurd h2 (by decide)
    | cons c₂ e =>
      cases e with
      | nil =>
        intro h
        have ht : List.take 4 (c₁ :: c₂ :: '.' :: R) = c₁ :: c₂ :: '.' :: List.take 1 R := rfl
        simp only [List.cons_append, List.nil_append] at h
        rw [ht] at h
        injection h with h1 h
        injection h with h2 h
        injection h with h3 h
        exact absurd h3 (by decide)
      | cons c₃ e =>
        cases e with
        | nil =>
          intro h
          have ht : List.take 4 (c₁ :: c₂ :: c₃ :: '.' :: R) = [c₁, c₂, c₃, '.'] := rfl
          simp only [List.cons_append, List.nil_append] at h
          rw [ht] at h
          injection h with h1 h
          injection h with h2 h
          injection h with h3 h
          subst h1; subst h2; subst h3
          exact hne rfl
        | cons c₄ rest =>
          intro h
          have ht : List.take 4 (c₁ :: c₂ :: c₃ :: c₄ :: (rest ++ '.' :: R)) = [c₁, c₂, c₃, c₄] := rfl
          simp only [List.cons_append] at h
          rw [ht] at h
          injection h with h1 h
          injection h with h2 h
          injection h with h3 h
          injection h with h4 h
          exact hdot c₄ (by simp) h4

/-- C3 claim counterexample: the same artifact name with a `.csv` extension
falls back to the default 0.5 with a warning — extraction is not
extension-agnostic as the claim states. -/
theorem C3_claim_counterexample :
    extract_threshold_from_filename "江戸川6_78910_3456位モデル_0125_0.95.csv" = (1/2, true)
    ∧ ¬ ((19 : ℚ)/20 = 1/2) := by
  constructor
  · with_unfolding_all decide
  · with_unfolding_all decide

/-- C3 (amended): threshold resolution captures the trailing
`_<digits>.<digits>` group only when the extension is literally `.txt` (the
regex ends in `\.txt$`): any such `.txt` path yields the decimal value of the
captured group with no warning — in particular the 江戸川 lane-6 artifact
yields 0.95 — while a path with any other dot-free extension, or with no
trailing pattern at all (`model.txt`), yields the default 0.5 with a non-fatal
warning.  The function is total: it never raises. -/
theorem C3_threshold_extraction_amended :
    (∀ p a b : String, ¬ a.data = [] → ¬ b.data = [] →
      (∀ c ∈ a.data, c.isDigit = true) → (∀ c ∈ b.data, c.isDigit = true) →
      extract_threshold_from_filename (p ++ "_" ++ a ++ "." ++ b ++ ".txt")
        = (decVal a.data b.data, false))
    ∧ (∀ p a b ext : String, ¬ a.data = [] → ¬ b.data = [] →
      (∀ c ∈ a.data, c.isDigit = true) → (∀ c ∈ b.data, c.isDigit = true) →
      (∀ c ∈ ext.data, ¬ c = '.' ∧ ¬ c = '/') → ¬ ext = "txt" →
      extract_threshold_from_filename (p ++ "_" ++ a ++ "." ++ b ++ "." ++ ext)
        = (1/2, true))
    ∧ extract_threshold_from_filename "江戸川6_78910_3456位モデル_0125_0.95.txt" = (19/20, false)
    ∧ extract_threshold_from_filename "model.txt" = (1/2, true) := by
  refine ⟨?_, ?_, by with_unfolding_all decide, by with_unfolding_all decide⟩
  · intro p a b ha hb hda hdb
    unfold extract_threshold_from_filename
    have hdata : (p ++ "_" ++ a ++ "." ++ b ++ ".txt").data
        = p.data ++ ('_' :: (a.data ++ ('.' :: (b.data ++ ['.', 't', 'x', 't'])))) := by
      simp only [String.data_append]
      simp [List.append_assoc]
    rw [hdata]
    unfold extractThresholdChars
    have hX : ∀ c ∈ ('_' :: (a.data ++ ('.' :: (b.data ++ ['.', 't', 'x', 't'])))), ¬ c = '/' := by
      intro c hc
      have hc' : c = '_' ∨ c ∈ a.data ∨ c = '.' ∨ c ∈ b.data ∨ c = 't' ∨ c = 'x' := by
        simp only [List.mem_cons, List.mem_append, List.not_mem_nil] at hc
        tauto
      rcases hc' with rfl | h | rfl | h | rfl | rfl
      · decide
      · exact ne_slash_of_digit (hda c h)
      · decide
      · exact ne_slash_of_digit (hdb c h)
      · decide
      · decide
    rw [revBasenameChars_append p.data _ hX]
    have hx : ('_' :: (a.data ++ ('.' :: (b.data ++ ['.', 't', 'x', 't'])))).reverse
        ++ p.data.reverse.takeWhile (fun c => ¬ c = '/')
        = 't' :: 'x' :: 't' :: '.' :: (b.data.reverse ++ '.' ::
            (a.data.reverse ++ '_' :: p.data.reverse.takeWhile (fun c => ¬ c = '/'))) := by
      simp [List.reverse_append, List.reverse_cons, List.append_assoc]
    rw [hx, threshMatch_success _ a.data b.data ha hb hda hdb]
  · intro p a b ext ha hb hda hdb hext hne
    unfold extract_threshold_from_filename
    have hdata : (p ++ "_" ++ a ++ "." ++ b ++ "." ++ ext).data
        = p.data ++ ('_' :: (a.data ++ ('.' :: (b.data ++ ('.' :: ext.data))))) := by
      simp only [String.data_append]
      simp [List.append_assoc]
    rw [hdata]
    unfold extractThresholdChars
    have hX : ∀ c ∈ ('_' :: (a.data ++ ('.' :: (b.data ++ ('.' :: ext.data))))), ¬ c = '/' := by
      intro c hc
      have hc' : c = '_' ∨ c ∈ a.data ∨ c = '.' ∨ c ∈ b.data ∨ c ∈ ext.data := by
        simp only [List.mem_cons, List.mem_append, List.not_mem_nil] at hc
        tauto
      rcases hc' with rfl | h | rfl | h | h
      · decide
      · exact ne_slash_of_digit (hda c h)
      · decide
      · exact ne_slash_of_digit (hdb c h)
      · exact (hext c h).2
    rw [revBasenameChars_append p.data _ hX]
    have hx : ('_' :: (a.data ++ ('.' :: (b.data ++ ('.' :: ext.data))))).reverse
        ++ p.data.reverse.takeWhile (fun c => ¬ c = '/')
        = ext.data.reverse ++ '.' :: (b.data.reverse ++ '.' ::
            (a.data.reverse ++ '_' :: p.data.reverse.takeWhile (fun c => ¬ c = '/'))) := by
      simp [List.reverse_append, List.reverse_cons, List.append_assoc]
    rw [hx]
    have hdot : ∀ c ∈ ext.data.reverse, ¬ c = '.' :=
      fun c hc => (hext c (List.mem_reverse.mp hc)).1
    have hne' : ¬ ext.data.reverse = ['t', 'x', 't'] := by
      intro hh
      apply hne
      apply String.ext
      have h2 := congrArg List.reverse hh
      rw [List.reverse_reverse] at h2
      exact h2
    rw [threshMatch_none _ (take4_ne_pattern ext.data.reverse _ hdot hne')]

/-- C3 witness: the amended theorem applied to the 下関 lanes-1-to-5 artifact
name, whose threshold digits are `0.8`. -/
theorem C3_witness :
    extract_threshold_from_filename ("下関1_5_78910_56位モデル_0125" ++ "_" ++ "0" ++ "." ++ "8" ++ ".txt")
      = (decVal ['0'] ['8'], false) :=
  C3_threshold_extraction_amended.1 "下関1_5_78910_56位モデル_0125" "0" "8"
    (by decide) (by decide) (by decide) (by decide)

/-! ## Claim C5 — unparsable raw fields -/

/-- The age conversion is the single fallible step of the per-row phase. -/
theorem ageStep_rawRow (x : RawRecord) :
    ageStep (cleanStep (rawRow x)) = (pyFloat (firstTwo x.age)).map
      (fun q => setCell (cleanStep (rawRow x)) "年齢" (Cell.num q)) := rfl

theorem prepRow1_rawRow_isSome (x : RawRecord) :
    (prepRow1 (rawRow x)).isSome = (pyFloat (firstTwo x.age)).isSome := by
  unfold prepRow1
  rw [ageStep_rawRow, Option.isSome_map', Option.isSome_map']

/-- C5 claim counterexample: a record whose age text does not start with a
numeric prefix makes `derive` raise (`astype(float)` has no
`errors='coerce'`), so derivation does not return normally on every batch. -/
theorem C5_claim_counterexample : derive [xrBadAgeC] = none := by
  with_unfolding_all decide

/-- C5 (amended): derivation is exception-free in every field except age —
`derive` returns normally exactly when each record's two-character age prefix
parses as a float; every other unparsable numeric field is coerced to missing
and resolved to 0 at final cleanup (shown on an unparsable weight), but an
unparsable age prefix raises out of the derivation. -/
theorem C5_derivation_robustness_amended :
    (∀ xs : List RawRecord,
      (derive xs).isSome = true ↔ ∀ x ∈ xs, (pyFloat (firstTwo x.age)).isSome = true)
    ∧ (derive [xrBadWeightC]).isSome = true
    ∧ getCell (((derive [xrBadWeightC]).getD []).headD []) "体重" = Cell.num 0 := by
  refine ⟨?_, by with_unfolding_all decide, by with_unfolding_all decide⟩
  intro xs
  unfold derive prepare_df
  cases hopt : optMap prepRow1 (xs.map rawRow) with
  | none =>
    simp only [hopt, Option.map_none', Option.isSome_none, Bool.false_eq_true, false_iff]
    intro hall
    have : (optMap prepRow1 (xs.map rawRow)).isSome = true := by
      rw [optMap_isSome]
      intro r hr
      rcases List.mem_map.mp hr with ⟨x, hx, rfl⟩
      rw [prepRow1_rawRow_isSome]
      exact hall x hx
    rw [hopt] at this
    exact absurd this (by simp)
  | some d =>
    simp only [hopt, Option.map_some', Option.isSome_some, true_iff]
    intro x hx
    have : (optMap prepRow1 (xs.map rawRow)).isSome = true := by rw [hopt]; rfl
    rw [optMap_isSome] at this
    have hx' := this (rawRow x) (List.mem_map_of_mem rawRow hx)
    rwa [prepRow1_rawRow_isSome] at hx'

/-- C5 witness: the amended equivalence at a concrete two-record batch. -/
theorem C5_witness :
    (derive [xrC, xrBadAgeC]).isSome = true ↔
      ∀ x ∈ [xrC, xrBadAgeC], (pyFloat (firstTwo x.age)).isSome = true :=
  C5_derivation_robustness_amended.1 [xrC, xrBadAgeC]

/-! ## Claim C7 — opponent-mean identity: infrastructure -/

theorem hasColRow_setCell_mono (r : Row) (c c' : String) (v : Cell)
    (h : hasColRow r c = true) : hasColRow (setCell r c' v) c = true :=
  (hasColRow_setCell_iff r c' c v).mpr (Or.inl h)

theorem hasColRow_setCell_same (r : Row) (c : String) (v : Cell) :
    hasColRow (setCell r c v) c = true :=
  (hasColRow_setCell_iff r c c v).mpr (Or.inr rfl)

/-- A numeric read means the column is present (an absent column reads NaN). -/
theorem hasColRow_of_isNum (r : Row) (c : String) (h : (getCell r c).isNum = true) :
    hasColRow r c = true := by
  induction r with
  | nil => simp [getCell, Cell.isNum] at h
  | cons p w ih =>
    by_cases hp : p.1 = c
    · simp [hasColRow, hp]
    · simp only [getCell, if_neg hp] at h
      simp [hasColRow, hp, ih h]

/-- Reading a present, non-`レースID` column after the final cleanup. -/
theorem getCell_finalizeRow (w : Row) (c : String) (hc : ¬ c = "レースID")
    (hw : hasColRow w c = true) :
    getCell (finalizeRow w) c = cellFinal (getCell w c) := by
  unfold finalizeRow dropColRow
  simp only [decide_not]
  induction w with
  | nil => simp [hasColRow] at hw
  | cons p w ih =>
    simp only [hasColRow, Bool.or_eq_true, decide_eq_true_eq] at hw
    by_cases hpr : p.1 = "レースID"
    · have hp : ¬ p.1 = c := by
        rw [hpr]
        intro hh
        exact hc hh.symm
      have hw2 : hasColRow w c = true := by
        rcases hw with hw1 | hw2
        · exact absurd hw1 hp
        · exact hw2
      rw [List.filter_cons, show (!decide (p.1 = "レースID")) = false by simp [hpr]]
      rw [show getCell (p :: w) c = getCell w c by simp [getCell, hp]]
      simp only [Bool.false_eq_true, if_false]
      exact ih hw2
    · rw [List.filter_cons, show (!decide (p.1 = "レースID")) = true by simp [hpr]]
      simp only [if_true, List.map_cons]
      by_cases hp : p.1 = c
      · simp [getCell, hp]
      · simp only [getCell, if_neg hp]
        have hw2 : hasColRow w c = true := by
          rcases hw with hw1 | hw2
          · exact absurd hw1 hp
          · exact hw2
        exact ih hw2

/-- `groupby` keeps every row when the whole table is one race group. -/
theorem groupBy_eq_self (df : DF) (c : String) (r : Row)
    (h : ∀ r' ∈ df, getCell r' c = getCell r c) : groupBy df c r = df := by
  unfold groupBy
  apply List.filter_eq_self.mpr
  intro a ha
  exact decide_eq_true (h a ha)

theorem colVals_map_congr (l : List Row) (g : Row → Row) (c : String)
    (h : ∀ r ∈ l, getCell (g r) c = getCell r c) :
    colVals (l.map g) c = colVals l c := by
  unfold colVals
  induction l with
  | nil => rfl
  | cons r l ih =>
    simp only [List.map_cons, List.filterMap_cons]
    rw [h r (List.mem_cons_self r l), ih (fun a ha => h a (List.mem_cons_of_mem r ha))]

/-- When every row's cell is numeric the aggregation skips nothing. -/
theorem length_colVals (l : List Row) (c : String)
    (h : ∀ r ∈ l, (getCell r c).isNum = true) :
    (colVals l c).length = l.length := by
  unfold colVals
  induction l with
  | nil => rfl
  | cons r l ih =>
    have hr := h r (List.mem_cons_self r l)
    simp only [List.filterMap_cons]
    cases hg : getCell r c with
    | num q => simp [ih (fun a ha => h a (List.mem_cons_of_mem r ha))]
    | str s => rw [hg] at hr; simp [Cell.isNum] at hr
    | na => rw [hg] at hr; simp [Cell.isNum] at hr

theorem qMeanCell_ne_nil (l : List ℚ) (h : ¬ l = []) :
    qMeanCell l = Cell.num (l.sum / l.length) := by
  cases l with
  | nil => exact absurd rfl h
  | cons x xs => rfl

/-! ### The `race_stats` merge: per-column facts -/

theorem addStatsRow_mean_win (df : DF) (r : Row) :
    getCell (addStatsRow df r) "勝率_全国_mean_全体"
      = qMeanCell (colVals (groupBy df "レースID" r) "勝率_全国") := by
  simp [addStatsRow, aggFeatures, getCell_setCell_ne, getCell_setCell_self]

theorem addStatsRow_mean_motor (df : DF) (r : Row) :
    getCell (addStatsRow df r) "モーターパワー_mean_全体"
      = qMeanCell (colVals (groupBy df "レースID" r) "モーターパワー") := by
  simp [addStatsRow, aggFeatures, getCell_setCell_ne, getCell_setCell_self]

theorem addStatsRow_mean_power (df : DF) (r : Row) :
    getCell (addStatsRow df r) "総合力スコア_mean_全体"
      = qMeanCell (colVals (groupBy df "レースID" r) "総合力スコア") := by
  simp [addStatsRow, aggFeatures, getCell_setCell_ne, getCell_setCell_self]

theorem addStatsRow_mean_class (df : DF) (r : Row) :
    getCell (addStatsRow df r) "クラスランク_mean_全体"
      = qMeanCell (colVals (groupBy df "レースID" r) "クラスランク") := by
  simp [addStatsRow, aggFeatures, getCell_setCell_ne, getCell_setCell_self]

theorem addStatsRow_keep_win (df : DF) (r : Row) :
    getCell (addStatsRow df r) "勝率_全国" = getCell r "勝率_全国" := by
  simp [addStatsRow, aggFeatures, getCell_setCell_ne]

theorem addStatsRow_keep_motor (df : DF) (r : Row) :
    getCell (addStatsRow df r) "モーターパワー" = getCell r "モーターパワー" := by
  simp [addStatsRow, aggFeatures, getCell_setCell_ne]

theorem addStatsRow_keep_power (df : DF) (r : Row) :
    getCell (addStatsRow df r) "総合力スコア" = getCell r "総合力スコア" := by
  simp [addStatsRow, aggFeatures, getCell_setCell_ne]

theorem addStatsRow_keep_class (df : DF) (r : Row) :
    getCell (addStatsRow df r) "クラスランク" = getCell r "クラスランク" := by
  simp [addStatsRow, aggFeatures, getCell_setCell_ne]

theorem addStatsRow_keep_raceID (df : DF) (r : Row) :
    getCell (addStatsRow df r) "レースID" = getCell r "レースID" := by
  simp [addStatsRow, aggFeatures, getCell_setCell_ne]

theorem addStatsRow_has_mean (df : DF) (r : Row) :
    hasColRow (addStatsRow df r) "勝率_全国_mean_全体" = true
    ∧ hasColRow (addStatsRow df r) "モーターパワー_mean_全体" = true
    ∧ hasColRow (addStatsRow df r) "総合力スコア_mean_全体" = true
    ∧ hasColRow (addStatsRow df r) "クラスランク_mean_全体" = true := by
  refine ⟨?_, ?_, ?_, ?_⟩ <;>
    simp [addStatsRow, aggFeatures, hasColRow_setCell_iff]

/-! ### Rowwise phases: what they leave untouched -/

theorem rwo_id (cols : List String) : RowWritesOnly (fun r => r) cols :=
  fun _ _ _ => ⟨rfl, fun h => h⟩

theorem rwo_comp (f g : Row → Row) (cols : List String)
    (hf : RowWritesOnly f cols) (hg : RowWritesOnly g cols) :
    RowWritesOnly (g ∘ f) cols := by
  intro r c hc
  exact ⟨((hg (f r) c hc).1).trans ((hf r c hc).1),
         fun h => (hg (f r) c hc).2 ((hf r c hc).2 h)⟩

theorem rwo_setCell_after (cols : List String) (tc : String) (htc : tc ∈ cols)
    (F : Row → Row) (v : Row → Cell) (hF : RowWritesOnly F cols) :
    RowWritesOnly (fun r => setCell (F r) tc (v r)) cols := by
  intro r c hc
  have hne : ¬ c = tc := fun he => hc (by rw [he]; exact htc)
  refine ⟨?_, ?_⟩
  · rw [getCell_setCell_ne _ _ _ _ hne]
    exact (hF r c hc).1
  · intro h
    exact hasColRow_setCell_mono _ _ _ _ ((hF r c hc).2 h)

theorem preservesBase (df : DF) (cols : List String) :
    ∃ f, df = df.map f ∧ RowWritesOnly f cols :=
  ⟨fun r => r, (List.map_id df).symm, rwo_id cols⟩

theorem preservesStep (df d : DF) (cols : List String)
    (hd : ∃ f, d = df.map f ∧ RowWritesOnly f cols)
    (tc : String) (htc : tc ∈ cols) (v : Row → Cell) :
    ∃ f, d.map (fun r => setCell r tc (v r)) = df.map f ∧ RowWritesOnly f cols := by
  obtain ⟨f, hf, hp⟩ := hd
  refine ⟨fun r => setCell (f r) tc (v (f r)), ?_, ?_⟩
  · rw [hf, List.map_map]
    rfl
  · exact rwo_setCell_after cols tc htc f (fun r => v (f r)) hp

theorem preservesMap (df : DF) (cols : List String) (g : Row → Row)
    (hg : RowWritesOnly g cols) :
    ∃ f, df.map g = df.map f ∧ RowWritesOnly f cols := ⟨g, rfl, hg⟩

theorem preservesIf (P : Prop) [Decidable P] (df d : DF) (cols : List String)
    (hd : ∃ f, d = df.map f ∧ RowWritesOnly f cols)
    (g : Row → Row) (hg : RowWritesOnly g cols) :
    ∃ f, (if P then d.map g else d) = df.map f ∧ RowWritesOnly f cols := by
  obtain ⟨f, hf, hp⟩ := hd
  by_cases hP : P
  · rw [if_pos hP, hf, List.map_map]
    exact ⟨g ∘ f, rfl, rwo_comp f g cols hp hg⟩
  · rw [if_neg hP]
    exact ⟨f, hf, hp⟩

/-- The exhibition block only writes its own columns. -/
theorem addExhibition_preserves : PreservesOut addExhibition exhibCols := by
  intro df
  unfold addExhibition
  by_cases h : hasCol df "スタート展示" = true
  · rw [if_pos h]
    repeat' apply preservesStep
    all_goals first
      | exact preservesBase df exhibCols
      | simp [exhibCols]
  · rw [if_neg h]
    exact preservesBase df exhibCols

/-- The tilt block only writes its own columns. -/
theorem addTilt_preserves : PreservesOut addTilt tiltCols := by
  intro df
  unfold addTilt
  by_cases h : hasCol df "チルト" = true
  · rw [if_pos h]
    apply preservesMap
    repeat' apply rwo_setCell_after
    all_goals first
      | exact rwo_id tiltCols
      | simp [tiltCols]
  · rw [if_neg h]
    exact preservesBase df tiltCols

/-- The interaction block only writes its own columns. -/
theorem addInteractions_preserves : PreservesOut addInteractions interCols := by
  intro df
  unfold addInteractions
  apply preservesIf
  · apply preservesIf
    · exact preservesBase df interCols
    · apply rwo_setCell_after
      · simp [interCols]
      · exact rwo_id interCols
  · apply rwo_setCell_after
    · simp [interCols]
    · exact rwo_id interCols

/-! ### The opponent-mean block as a rowwise map -/

theorem hasCol_cons (r : Row) (l : List Row) (c : String) :
    hasCol (r :: l) c = hasColRow r c := rfl

theorem hasColRow_oppColRow_mono (cc : String) (r : Row) (c : String)
    (h : hasColRow r c = true) : hasColRow (oppColRow cc r) c = true := by
  unfold oppColRow
  exact hasColRow_setCell_mono _ _ _ _ (hasColRow_setCell_mono _ _ _ _ h)

theorem oppColStep_cons (cc : String) (r₀ : Row) (rest : List Row)
    (h : hasColRow r₀ (cc ++ "_mean_全体") = true) :
    oppColStep cc (r₀ :: rest) = oppColRow cc r₀ :: rest.map (oppColRow cc) := by
  unfold oppColStep
  rw [if_pos (show hasCol (r₀ :: rest) (cc ++ "_mean_全体") = true from h), List.map_cons]

theorem map_if_hasCol (c : String) (g : Row → Row) (r₀ : Row) (rest : List Row)
    (h : hasColRow r₀ c = true) :
    (if hasCol (r₀ :: rest) c then (r₀ :: rest).map g else (r₀ :: rest))
      = g r₀ :: rest.map g := by
  rw [if_pos (show hasCol (r₀ :: rest) c = true from h), List.map_cons]

/-- On a nonempty frame carrying the four `_mean_全体` columns, the whole
opponent block is the rowwise map `oppRowFun`. -/
theorem addOpp_eq (r₀ : Row) (rest : List Row)
    (h₁ : hasColRow r₀ "勝率_全国_mean_全体" = true)
    (h₂ : hasColRow r₀ "モーターパワー_mean_全体" = true)
    (h₃ : hasColRow r₀ "総合力スコア_mean_全体" = true)
    (h₄ : hasColRow r₀ "クラスランク_mean_全体" = true) :
    addOpp (r₀ :: rest) = (r₀ :: rest).map oppRowFun := by
  unfold addOpp
  simp only [oppCols, List.foldl_cons, List.foldl_nil]
  rw [oppColStep_cons _ _ _ h₁]
  rw [oppColStep_cons _ _ _ (hasColRow_oppColRow_mono _ _ _ h₂)]
  rw [oppColStep_cons _ _ _
    (hasColRow_oppColRow_mono _ _ _ (hasColRow_oppColRow_mono _ _ _ h₃))]
  rw [map_if_hasCol _ _ _ _
    (hasColRow_oppColRow_mono _ _ _
      (hasColRow_oppColRow_mono _ _ _ (hasColRow_oppColRow_mono _ _ _ h₄)))]
  simp only [List.map_cons, List.map_map]
  rfl

theorem hasColRow_addStatsRow_mono (df : DF) (w : Row) (c : String)
    (h : hasColRow w c = true) : hasColRow (addStatsRow df w) c = true := by
  simp [addStatsRow, aggFeatures, hasColRow_setCell_iff, h]

theorem hasColRow_oppRowFun_mono (r : Row) (c : String) (h : hasColRow r c = true) :
    hasColRow (oppRowFun r) c = true := by
  simp [oppRowFun, classOppRow, oppColRow, hasColRow_setCell_iff, h]

/-- The seven columns the opponent block writes are present afterwards. -/
theorem hasColRow_oppRowFun_written (r : Row) :
    hasColRow (oppRowFun r) "勝率_全国_敵平均" = true ∧
    hasColRow (oppRowFun r) "モーターパワー_敵平均" = true ∧
    hasColRow (oppRowFun r) "総合力スコア_敵平均" = true ∧
    hasColRow (oppRowFun r) "敵平均クラスランク" = true ∧
    hasColRow (oppRowFun r) "勝率_全国_差" = true ∧
    hasColRow (oppRowFun r) "モーターパワー_差" = true ∧
    hasColRow (oppRowFun r) "総合力スコア_差" = true := by
  refine ⟨?_, ?_, ?_, ?_, ?_, ?_, ?_⟩ <;>
    simp [oppRowFun, classOppRow, oppColRow, hasColRow_setCell_iff]

/-- The eleven cell values the opponent block leaves on one row of a single
race group, in terms of the row's own values and the group means. -/
theorem oppRow_after_stats (P : DF) (w : Row)
    (hg : groupBy P "レースID" w = P)
    (s₁ s₂ s₃ s₄ m₁ m₂ m₃ m₄ : ℚ)
    (h₁ : getCell w "勝率_全国" = Cell.num s₁)
    (h₂ : getCell w "モーターパワー" = Cell.num s₂)
    (h₃ : getCell w "総合力スコア" = Cell.num s₃)
    (h₄ : getCell w "クラスランク" = Cell.num s₄)
    (hm₁ : qMeanCell (colVals P "勝率_全国") = Cell.num m₁)
    (hm₂ : qMeanCell (colVals P "モーターパワー") = Cell.num m₂)
    (hm₃ : qMeanCell (colVals P "総合力スコア") = Cell.num m₃)
    (hm₄ : qMeanCell (colVals P "クラスランク") = Cell.num m₄) :
    getCell (oppRowFun (addStatsRow P w)) "勝率_全国" = Cell.num s₁ ∧
    getCell (oppRowFun (addStatsRow P w)) "モーターパワー" = Cell.num s₂ ∧
    getCell (oppRowFun (addStatsRow P w)) "総合力スコア" = Cell.num s₃ ∧
    getCell (oppRowFun (addStatsRow P w)) "クラスランク" = Cell.num s₄ ∧
    getCell (oppRowFun (addStatsRow P w)) "勝率_全国_敵平均" = Cell.num ((m₁ * 6 - s₁) / 5) ∧
    getCell (oppRowFun (addStatsRow P w)) "モーターパワー_敵平均" = Cell.num ((m₂ * 6 - s₂) / 5) ∧
    getCell (oppRowFun (addStatsRow P w)) "総合力スコア_敵平均" = Cell.num ((m₃ * 6 - s₃) / 5) ∧
    getCell (oppRowFun (addStatsRow P w)) "敵平均クラスランク" = Cell.num ((m₄ * 6 - s₄) / 5) ∧
    getCell (oppRowFun (addStatsRow P w)) "勝率_全国_差" = Cell.num (s₁ - (m₁ * 6 - s₁) / 5) ∧
    getCell (oppRowFun (addStatsRow P w)) "モーターパワー_差" = Cell.num (s₂ - (m₂ * 6 - s₂) / 5) ∧
    getCell (oppRowFun (addStatsRow P w)) "総合力スコア_差" = Cell.num (s₃ - (m₃ * 6 - s₃) / 5) := by
  refine ⟨?_, ?_, ?_, ?_, ?_, ?_, ?_, ?_, ?_, ?_, ?_⟩ <;>
    simp [oppRowFun, classOppRow, oppColRow, getCell_setCell_ne, getCell_setCell_self,
      addStatsRow_mean_win, addStatsRow_mean_motor, addStatsRow_mean_power,
      addStatsRow_mean_class, addStatsRow_keep_win, addStatsRow_keep_motor,
      addStatsRow_keep_power, addStatsRow_keep_class,
      hg, h₁, h₂, h₃, h₄, hm₁, hm₂, hm₃, hm₄, cDiv, cSub, cMul, cellBin]

theorem isNum_exists (c : Cell) (h : c.isNum = true) : ∃ q, c = Cell.num q := by
  cases c with
  | num q => exact ⟨q, rfl⟩
  | str s => simp [Cell.isNum] at h
  | na => simp [Cell.isNum] at h

/-- Reading a column none of the three trailing phases writes, through those
phases and the final cleanup. -/
theorem rwo_finalize_read (fE fT fI : Row → Row)
    (hpE : RowWritesOnly fE exhibCols) (hpT : RowWritesOnly fT tiltCols)
    (hpI : RowWritesOnly fI interCols)
    (u : Row) (X : String) (q : ℚ)
    (hu : getCell u X = Cell.num q) (hhas : hasColRow u X = true)
    (hXe : ¬ X ∈ exhibCols) (hXt : ¬ X ∈ tiltCols) (hXi : ¬ X ∈ interCols)
    (hXr : ¬ X = "レースID") :
    getCell (finalizeRow (fI (fT (fE u)))) X = Cell.num q := by
  have e1 := (hpE u X hXe).1
  have p1 := (hpE u X hXe).2 hhas
  have e2 := (hpT (fE u) X hXt).1
  have p2 := (hpT (fE u) X hXt).2 p1
  have e3 := (hpI (fT (fE u)) X hXi).1
  have p3 := (hpI (fT (fE u)) X hXi).2 p2
  rw [getCell_finalizeRow _ _ hXr p3, e3, e2, e1, hu]
  rfl


/-- C7: for every race group of exactly 6 rows with numeric national win
rate, motor power, overall-power score and class rank, the derived table
computes each competitor's opponent mean for those four columns as
`(group_mean * 6 - self) / 5`, so `group_mean * 6 = self + 5 * opponent_mean`
holds exactly for every competitor, and each opponent-delta column equals
self minus that opponent mean. -/
theorem C7_opponent_mean_identity (df P D : DF) (rid : Cell)
    (hP : optMap prepRow1 df = some P)
    (hD : prepare_df df = some D)
    (hgroup : ∀ r ∈ P, getCell r "レースID" = rid)
    (hlen : P.length = 6)
    (hn₁ : ∀ r ∈ P, (getCell r "勝率_全国").isNum = true)
    (hn₂ : ∀ r ∈ P, (getCell r "モーターパワー").isNum = true)
    (hn₃ : ∀ r ∈ P, (getCell r "総合力スコア").isNum = true)
    (hn₄ : ∀ r ∈ P, (getCell r "クラスランク").isNum = true) :
    (∀ p ∈ oppPairs, OppIdentity D p.1 p.2) ∧
    OppDelta D "勝率_全国" "勝率_全国_敵平均" "勝率_全国_差" ∧
    OppDelta D "モーターパワー" "モーターパワー_敵平均" "モーターパワー_差" ∧
    OppDelta D "総合力スコア" "総合力スコア_敵平均" "総合力スコア_差" := by
  have hDD : D = (addInteractions (addTilt (addExhibition
      (addOpp (addStats P))))).map finalizeRow := by
    unfold prepare_df at hD
    rw [hP, Option.map_some'] at hD
    exact (Option.some.inj hD).symm
  obtain ⟨r₀, rest, hPc⟩ : ∃ r₀ rest, P = r₀ :: rest := by
    cases P with
    | nil => simp at hlen
    | cons a l => exact ⟨a, l, rfl⟩
  have hstats : addStats P = P.map (addStatsRow P) := rfl
  have hcons : addStats P = addStatsRow P r₀ :: rest.map (addStatsRow P) := by
    simp only [hPc]
    rfl
  have hOpp : addOpp (addStats P) = (addStats P).map oppRowFun := by
    rw [hcons]
    exact addOpp_eq _ _ (addStatsRow_has_mean P r₀).1 (addStatsRow_has_mean P r₀).2.1
      (addStatsRow_has_mean P r₀).2.2.1 (addStatsRow_has_mean P r₀).2.2.2
  obtain ⟨fE, hfE, hpE⟩ := addExhibition_preserves (addOpp (addStats P))
  obtain ⟨fT, hfT, hpT⟩ := addTilt_preserves (addExhibition (addOpp (addStats P)))
  obtain ⟨fI, hfI, hpI⟩ := addInteractions_preserves (addTilt (addExhibition (addOpp (addStats P))))
  have hDmap : D = P.map
      (fun w => finalizeRow (fI (fT (fE (oppRowFun (addStatsRow P w)))))) := by
    rw [hDD, hfI, hfT, hfE, hOpp, hstats]
    rw [List.map_map, List.map_map, List.map_map, List.map_map, List.map_map]
    rfl
  have hgr : ∀ w ∈ P, groupBy P "レースID" w = P := fun w hw =>
    groupBy_eq_self P "レースID" w (fun r' hr' => (hgroup r' hr').trans (hgroup w hw).symm)
  have hl₁ : (colVals P "勝率_全国").length = 6 := (length_colVals P _ hn₁).trans hlen
  have hl₂ : (colVals P "モーターパワー").length = 6 := (length_colVals P _ hn₂).trans hlen
  have hl₃ : (colVals P "総合力スコア").length = 6 := (length_colVals P _ hn₃).trans hlen
  have hl₄ : (colVals P "クラスランク").length = 6 := (length_colVals P _ hn₄).trans hlen
  have hmg : ∀ c : String, (colVals P c).length = 6 →
      qMeanCell (colVals P c) = Cell.num ((colVals P c).sum / 6) := by
    intro c hc
    have hne : ¬ colVals P c = [] := by
      intro h0
      rw [h0] at hc
      simp at hc
    rw [qMeanCell_ne_nil _ hne, hc]
    norm_num
  have hm₁ := hmg _ hl₁
  have hm₂ := hmg _ hl₂
  have hm₃ := hmg _ hl₃
  have hm₄ := hmg _ hl₄
  have key : ∀ w ∈ P, ∃ s₁ s₂ s₃ s₄ : ℚ,
      getCell w "勝率_全国" = Cell.num s₁ ∧
      getCell w "モーターパワー" = Cell.num s₂ ∧
      getCell w "総合力スコア" = Cell.num s₃ ∧
      getCell w "クラスランク" = Cell.num s₄ ∧
      getCell (finalizeRow (fI (fT (fE (oppRowFun (addStatsRow P w)))))) "勝率_全国"
        = Cell.num s₁ ∧
      getCell (finalizeRow (fI (fT (fE (oppRowFun (addStatsRow P w)))))) "モーターパワー"
        = Cell.num s₂ ∧
      getCell (finalizeRow (fI (fT (fE (oppRowFun (addStatsRow P w)))))) "総合力スコア"
        = Cell.num s₃ ∧
      getCell (finalizeRow (fI (fT (fE (oppRowFun (addStatsRow P w)))))) "クラスランク"
        = Cell.num s₄ ∧
      getCell (finalizeRow (fI (fT (fE (oppRowFun (addStatsRow P w)))))) "勝率_全国_敵平均"
        = Cell.num (((colVals P "勝率_全国").sum / 6 * 6 - s₁) / 5) ∧
      getCell (finalizeRow (fI (fT (fE (oppRowFun (addStatsRow P w)))))) "モーターパワー_敵平均"
        = Cell.num (((colVals P "モーターパワー").sum / 6 * 6 - s₂) / 5) ∧
      getCell (finalizeRow (fI (fT (fE (oppRowFun (addStatsRow P w)))))) "総合力スコア_敵平均"
        = Cell.num (((colVals P "総合力スコア").sum / 6 * 6 - s₃) / 5) ∧
      getCell (finalizeRow (fI (fT (fE (oppRowFun (addStatsRow P w)))))) "敵平均クラスランク"
        = Cell.num (((colVals P "クラスランク").sum / 6 * 6 - s₄) / 5) ∧
      getCell (finalizeRow (fI (fT (fE (oppRowFun (addStatsRow P w)))))) "勝率_全国_差"
        = Cell.num (s₁ - ((colVals P "勝率_全国").sum / 6 * 6 - s₁) / 5) ∧
      getCell (finalizeRow (fI (fT (fE (oppRowFun (addStatsRow P w)))))) "モーターパワー_差"
        = Cell.num (s₂ - ((colVals P "モーターパワー").sum / 6 * 6 - s₂) / 5) ∧
      getCell (finalizeRow (fI (fT (fE (oppRowFun (addStatsRow P w)))))) "総合力スコア_差"
        = Cell.num (s₃ - ((colVals P "総合力スコア").sum / 6 * 6 - s₃) / 5) := by
    intro w hw
    obtain ⟨s₁, hs₁⟩ := isNum_exists _ (hn₁ w hw)
    obtain ⟨s₂, hs₂⟩ := isNum_exists _ (hn₂ w hw)
    obtain ⟨s₃, hs₃⟩ := isNum_exists _ (hn₃ w hw)
    obtain ⟨s₄, hs₄⟩ := isNum_exists _ (hn₄ w hw)
    obtain ⟨v₁, v₂, v₃, v₄, v₅, v₆, v₇, v₈, v₉, v₁₀, v₁₁⟩ :=
      oppRow_after_stats P w (hgr w hw) s₁ s₂ s₃ s₄ _ _ _ _ hs₁ hs₂ hs₃ hs₄ hm₁ hm₂ hm₃ hm₄
    have hb₁ : hasColRow w "勝率_全国" = true := hasColRow_of_isNum _ _ (by rw [hs₁]; rfl)
    have hb₂ : hasColRow w "モーターパワー" = true := hasColRow_of_isNum _ _ (by rw [hs₂]; rfl)
    have hb₃ : hasColRow w "総合力スコア" = true := hasColRow_of_isNum _ _ (by rw [hs₃]; rfl)
    have hb₄ : hasColRow w "クラスランク" = true := hasColRow_of_isNum _ _ (by rw [hs₄]; rfl)
    have hu₁ : hasColRow (oppRowFun (addStatsRow P w)) "勝率_全国" = true :=
      hasColRow_oppRowFun_mono _ _ (hasColRow_addStatsRow_mono P w _ hb₁)
    have hu₂ : hasColRow (oppRowFun (addStatsRow P w)) "モーターパワー" = true :=
      hasColRow_oppRowFun_mono _ _ (hasColRow_addStatsRow_mono P w _ hb₂)
    have hu₃ : hasColRow (oppRowFun (addStatsRow P w)) "総合力スコア" = true :=
      hasColRow_oppRowFun_mono _ _ (hasColRow_addStatsRow_mono P w _ hb₃)
    have hu₄ : hasColRow (oppRowFun (addStatsRow P w)) "クラスランク" = true :=
      hasColRow_oppRowFun_mono _ _ (hasColRow_addStatsRow_mono P w _ hb₄)
    have hwr := hasColRow_oppRowFun_written (addStatsRow P w)
    refine ⟨s₁, s₂, s₃, s₄, hs₁, hs₂, hs₃, hs₄, ?_, ?_, ?_, ?_, ?_, ?_, ?_, ?_, ?_, ?_, ?_⟩
    · exact rwo_finalize_read fE fT fI hpE hpT hpI _ _ _ v₁ hu₁
        (by decide) (by decide) (by decide) (by decide)
    · exact rwo_finalize_read fE fT fI hpE hpT hpI _ _ _ v₂ hu₂
        (by decide) (by decide) (by decide) (by decide)
    · exact rwo_finalize_read fE fT fI hpE hpT hpI _ _ _ v₃ hu₃
        (by decide) (by decide) (by decide) (by decide)
    · exact rwo_finalize_read fE fT fI hpE hpT hpI _ _ _ v₄ hu₄
        (by decide) (by decide) (by decide) (by decide)
    · exact rwo_finalize_read fE fT fI hpE hpT hpI _ _ _ v₅ hwr.1
        (by decide) (by decide) (by decide) (by decide)
    · exact rwo_finalize_read fE fT fI hpE hpT hpI _ _ _ v₆ hwr.2.1
        (by decide) (by decide) (by decide) (by decide)
    · exact rwo_finalize_read fE fT fI hpE hpT hpI _ _ _ v₇ hwr.2.2.1
        (by decide) (by decide) (by decide) (by decide)
    · exact rwo_finalize_read fE fT fI hpE hpT hpI _ _ _ v₈ hwr.2.2.2.1
        (by decide) (by decide) (by decide) (by decide)
    · exact rwo_finalize_read fE fT fI hpE hpT hpI _ _ _ v₉ hwr.2.2.2.2.1
        (by decide) (by decide) (by decide) (by decide)
    · exact rwo_finalize_read fE fT fI hpE hpT hpI _ _ _ v₁₀ hwr.2.2.2.2.2.1
        (by decide) (by decide) (by decide) (by decide)
    · exact rwo_finalize_read fE fT fI hpE hpT hpI _ _ _ v₁₁ hwr.2.2.2.2.2.2
        (by decide) (by decide) (by decide) (by decide)
  have hcv₁ : colVals D "勝率_全国" = colVals P "勝率_全国" := by
    rw [hDmap]
    refine colVals_map_congr P _ _ (fun w hw => ?_)
    obtain ⟨s₁, s₂, s₃, s₄, b₁, b₂, b₃, b₄, f₁, f₂, f₃, f₄, o₁, o₂, o₃, o₄, d₁, d₂, d₃⟩ :=
      key w hw
    simp only [f₁, b₁]
  have hcv₂ : colVals D "モーターパワー" = colVals P "モーターパワー" := by
    rw [hDmap]
    refine colVals_map_congr P _ _ (fun w hw => ?_)
    obtain ⟨s₁, s₂, s₃, s₄, b₁, b₂, b₃, b₄, f₁, f₂, f₃, f₄, o₁, o₂, o₃, o₄, d₁, d₂, d₃⟩ :=
      key w hw
    simp only [f₂, b₂]
  have hcv₃ : colVals D "総合力スコア" = colVals P "総合力スコア" := by
    rw [hDmap]
    refine colVals_map_congr P _ _ (fun w hw => ?_)
    obtain ⟨s₁, s₂, s₃, s₄, b₁, b₂, b₃, b₄, f₁, f₂, f₃, f₄, o₁, o₂, o₃, o₄, d₁, d₂, d₃⟩ :=
      key w hw
    simp only [f₃, b₃]
  have hcv₄ : colVals D "クラスランク" = colVals P "クラスランク" := by
    rw [hDmap]
    refine colVals_map_congr P _ _ (fun w hw => ?_)
    obtain ⟨s₁, s₂, s₃, s₄, b₁, b₂, b₃, b₄, f₁, f₂, f₃, f₄, o₁, o₂, o₃, o₄, d₁, d₂, d₃⟩ :=
      key w hw
    simp only [f₄, b₄]
  have I₁ : OppIdentity D "勝率_全国" "勝率_全国_敵平均" := by
    refine ⟨by rw [hcv₁]; exact hl₁, ?_⟩
    intro r hr
    rw [hDmap] at hr
    obtain ⟨w, hw, rfl⟩ := List.mem_map.mp hr
    obtain ⟨s₁, s₂, s₃, s₄, b₁, b₂, b₃, b₄, f₁, f₂, f₃, f₄, o₁, o₂, o₃, o₄, d₁, d₂, d₃⟩ :=
      key w hw
    refine ⟨s₁, ((colVals P "勝率_全国").sum / 6 * 6 - s₁) / 5, f₁, o₁, ?_⟩
    rw [hcv₁]
    ring
  have I₂ : OppIdentity D "モーターパワー" "モーターパワー_敵平均" := by
    refine ⟨by rw [hcv₂]; exact hl₂, ?_⟩
    intro r hr
    rw [hDmap] at hr
    obtain ⟨w, hw, rfl⟩ := List.mem_map.mp hr
    obtain ⟨s₁, s₂, s₃, s₄, b₁, b₂, b₃, b₄, f₁, f₂, f₃, f₄, o₁, o₂, o₃, o₄, d₁, d₂, d₃⟩ :=
      key w hw
    refine ⟨s₂, ((colVals P "モーターパワー").sum / 6 * 6 - s₂) / 5, f₂, o₂, ?_⟩
    rw [hcv₂]
    ring
  have I₃ : OppIdentity D "総合力スコア" "総合力スコア_敵平均" := by
    refine ⟨by rw [hcv₃]; exact hl₃, ?_⟩
    intro r hr
    rw [hDmap] at hr
    obtain ⟨w, hw, rfl⟩ := List.mem_map.mp hr
    obtain ⟨s₁, s₂, s₃, s₄, b₁, b₂, b₃, b₄, f₁, f₂, f₃, f₄, o₁, o₂, o₃, o₄, d₁, d₂, d₃⟩ :=
      key w hw
    refine ⟨s₃, ((colVals P "総合力スコア").sum / 6 * 6 - s₃) / 5, f₃, o₃, ?_⟩
    rw [hcv₃]
    ring
  have I₄ : OppIdentity D "クラスランク" "敵平均クラスランク" := by
    refine ⟨by rw [hcv₄]; exact hl₄, ?_⟩
    intro r hr
    rw [hDmap] at hr
    obtain ⟨w, hw, rfl⟩ := List.mem_map.mp hr
    obtain ⟨s₁, s₂, s₃, s₄, b₁, b₂, b₃, b₄, f₁, f₂, f₃, f₄, o₁, o₂, o₃, o₄, d₁, d₂, d₃⟩ :=
      key w hw
    refine ⟨s₄, ((colVals P "クラスランク").sum / 6 * 6 - s₄) / 5, f₄, o₄, ?_⟩
    rw [hcv₄]
    ring
  have Δ₁ : OppDelta D "勝率_全国" "勝率_全国_敵平均" "勝率_全国_差" := by
    intro r hr
    rw [hDmap] at hr
    obtain ⟨w, hw, rfl⟩ := List.mem_map.mp hr
    obtain ⟨s₁, s₂, s₃, s₄, b₁, b₂, b₃, b₄, f₁, f₂, f₃, f₄, o₁, o₂, o₃, o₄, d₁, d₂, d₃⟩ :=
      key w hw
    exact ⟨s₁, ((colVals P "勝率_全国").sum / 6 * 6 - s₁) / 5, f₁, o₁, d₁⟩
  have Δ₂ : OppDelta D "モーターパワー" "モーターパワー_敵平均" "モーターパワー_差" := by
    intro r hr
    rw [hDmap] at hr
    obtain ⟨w, hw, rfl⟩ := List.mem_map.mp hr
    obtain ⟨s₁, s₂, s₃, s₄, b₁, b₂, b₃, b₄, f₁, f₂, f₃, f₄, o₁, o₂, o₃, o₄, d₁, d₂, d₃⟩ :=
      key w hw
    exact ⟨s₂, ((colVals P "モーターパワー").sum / 6 * 6 - s₂) / 5, f₂, o₂, d₂⟩
  have Δ₃ : OppDelta D "総合力スコア" "総合力スコア_敵平均" "総合力スコア_差" := by
    intro r hr
    rw [hDmap] at hr
    obtain ⟨w, hw, rfl⟩ := List.mem_map.mp hr
    obtain ⟨s₁, s₂, s₃, s₄, b₁, b₂, b₃, b₄, f₁, f₂, f₃, f₄, o₁, o₂, o₃, o₄, d₁, d₂, d₃⟩ :=
      key w hw
    exact ⟨s₃, ((colVals P "総合力スコア").sum / 6 * 6 - s₃) / 5, f₃, o₃, d₃⟩
  refine ⟨?_, Δ₁, Δ₂, Δ₃⟩
  intro p hp
  simp only [oppPairs, List.mem_cons, List.not_mem_nil, or_false] at hp
  rcases hp with rfl | rfl | rfl | rfl
  · exact I₁
  · exact I₂
  · exact I₃
  · exact I₄

set_option maxHeartbeats 4000000 in
/-- Witness: the identities hold on the concrete derived table of the
six-record race batch. -/
theorem C7_witness :
    (∀ p ∈ oppPairs, OppIdentity DC7 p.1 p.2) ∧
    OppDelta DC7 "勝率_全国" "勝率_全国_敵平均" "勝率_全国_差" ∧
    OppDelta DC7 "モーターパワー" "モーターパワー_敵平均" "モーターパワー_差" ∧
    OppDelta DC7 "総合力スコア" "総合力スコア_敵平均" "総合力スコア_差" :=
  C7_opponent_mean_identity (batchC7.map rawRow) PC7 DC7 (getCell (PC7.headD []) "レースID")
    (by with_unfolding_all rfl) (by with_unfolding_all rfl)
    (by with_unfolding_all decide) (by with_unfolding_all decide)
    (by with_unfolding_all decide) (by with_unfolding_all decide)
    (by with_unfolding_all decide) (by with_unfolding_all decide)


theorem colsOf_cons (r : Row) (l : List Row) : colsOf (r :: l) = r.map Prod.fst := rfl

theorem getCell_reindexRow (cs : List String) (r : Row) (c : String) (hc : c ∈ cs) :
    getCell (reindexRow cs r) c = if hasColRow r c then getCell r c else Cell.na := by
  induction cs with
  | nil => cases hc
  | cons d cs ih =>
    by_cases hd : d = c
    · subst hd
      simp [reindexRow, getCell]
    · have hc' : c ∈ cs := by
        rcases List.mem_cons.mp hc with h | h
        · exact absurd h.symm hd
        · exact h
      simpa [reindexRow, getCell, hd] using ih hc'

theorem getCell_attachRow_ne (s : Row → ℚ) (θ : ℚ) (nc fc : String) (r : Row) (c : String)
    (h1 : ¬ c = nc) (h2 : ¬ c = fc) :
    getCell (attachRow s θ nc fc r) c = getCell r c := by
  unfold attachRow
  rw [getCell_setCell_ne _ _ _ _ h2, getCell_setCell_ne _ _ _ _ h1]

theorem getCell_attachRow_num (s : Row → ℚ) (θ : ℚ) (nc fc : String) (r : Row)
    (h : ¬ nc = fc) :
    getCell (attachRow s θ nc fc r) nc = Cell.num (s r) := by
  unfold attachRow
  rw [getCell_setCell_ne _ _ _ _ h, getCell_setCell_self]

theorem getCell_attachRow_flag (s : Row → ℚ) (θ : ℚ) (nc fc : String) (r : Row) :
    getCell (attachRow s θ nc fc r) fc = Cell.num (binFlag (s r) θ) := by
  unfold attachRow
  rw [getCell_setCell_self]

theorem hasColRow_attachRow_mono (s : Row → ℚ) (θ : ℚ) (nc fc : String) (r : Row) (c : String)
    (h : hasColRow r c = true) : hasColRow (attachRow s θ nc fc r) c = true := by
  unfold attachRow
  exact hasColRow_setCell_mono _ _ _ _ (hasColRow_setCell_mono _ _ _ _ h)

theorem hasColRow_attachRow_num (s : Row → ℚ) (θ : ℚ) (nc fc : String) (r : Row) :
    hasColRow (attachRow s θ nc fc r) nc = true := by
  simp [attachRow, hasColRow_setCell_iff]

theorem hasColRow_attachRow_flag (s : Row → ℚ) (θ : ℚ) (nc fc : String) (r : Row) :
    hasColRow (attachRow s θ nc fc r) fc = true := by
  simp [attachRow, hasColRow_setCell_iff]

theorem hasColRow_setCell_false (r : Row) (c c' : String) (v : Cell)
    (h : hasColRow r c' = false) (hne : ¬ c' = c) :
    hasColRow (setCell r c v) c' = false := by
  rw [← Bool.not_eq_true, hasColRow_setCell_iff]
  rintro (h' | h')
  · rw [h'] at h
    cases h
  · exact hne h'

theorem hasColRow_attachRow_false (s : Row → ℚ) (θ : ℚ) (nc fc : String) (r : Row) (c : String)
    (h : hasColRow r c = false) (h1 : ¬ c = nc) (h2 : ¬ c = fc) :
    hasColRow (attachRow s θ nc fc r) c = false := by
  unfold attachRow
  exact hasColRow_setCell_false _ _ _ _ (hasColRow_setCell_false _ _ _ _ h h1) h2

theorem mem_unionCols_left (a b : DF) (c : String) (h : c ∈ colsOf a) : c ∈ unionCols a b :=
  List.mem_append_left _ h

theorem mem_unionCols_right (a b : DF) (c : String) (hb : c ∈ colsOf b)
    (ha : ¬ c ∈ colsOf a) : c ∈ unionCols a b := by
  refine List.mem_append_right _ ?_
  simp [List.mem_filter, hb, ha]

theorem getCell_pdConcat_map (a b : DF) (c : String) (hma : c ∈ colsOf a) :
    (pdConcat a b).map (fun r => getCell r c)
      = a.map (fun r => if hasColRow r c then getCell r c else Cell.na)
        ++ b.map (fun r => if hasColRow r c then getCell r c else Cell.na) := by
  unfold pdConcat
  simp only [List.map_append, List.map_map]
  have hmem : c ∈ unionCols a b := List.mem_append_left _ hma
  refine congrArg₂ (· ++ ·) ?_ ?_
  · exact List.map_congr_left (fun r _ => getCell_reindexRow _ _ _ hmem)
  · exact List.map_congr_left (fun r _ => getCell_reindexRow _ _ _ hmem)

theorem course6Subset_six (r1 r2 r3 r4 r5 r6 : Row)
    (hc1 : getCell r1 "コース" = Cell.num 1) (hc2 : getCell r2 "コース" = Cell.num 2)
    (hc3 : getCell r3 "コース" = Cell.num 3) (hc4 : getCell r4 "コース" = Cell.num 4)
    (hc5 : getCell r5 "コース" = Cell.num 5) (hc6 : getCell r6 "コース" = Cell.num 6) :
    course6Subset [r1, r2, r3, r4, r5, r6] = [r6] := by
  have e1 : decide (getCell r1 "コース" = Cell.num 6) = false := by
    rw [hc1]; with_unfolding_all decide
  have e2 : decide (getCell r2 "コース" = Cell.num 6) = false := by
    rw [hc2]; with_unfolding_all decide
  have e3 : decide (getCell r3 "コース" = Cell.num 6) = false := by
    rw [hc3]; with_unfolding_all decide
  have e4 : decide (getCell r4 "コース" = Cell.num 6) = false := by
    rw [hc4]; with_unfolding_all decide
  have e5 : decide (getCell r5 "コース" = Cell.num 6) = false := by
    rw [hc5]; with_unfolding_all decide
  have e6 : decide (getCell r6 "コース" = Cell.num 6) = true := by
    rw [hc6]; with_unfolding_all decide
  simp [course6Subset, List.filter_cons, e1, e2, e3, e4, e5, e6]

theorem runInference_six (fs : FileSystem) (v p1 p6 : String) (s1 s6 : Row → ℚ)
    (r1 r2 r3 r4 r5 r6 : Row)
    (hv : modelPathsFor v = some (p1, p6))
    (h1 : fs p1 = some s1) (h6 : fs p6 = some s6)
    (hc1 : getCell r1 "コース" = Cell.num 1) (hc2 : getCell r2 "コース" = Cell.num 2)
    (hc3 : getCell r3 "コース" = Cell.num 3) (hc4 : getCell r4 "コース" = Cell.num 4)
    (hc5 : getCell r5 "コース" = Cell.num 5) (hc6 : getCell r6 "コース" = Cell.num 6)
    (hd : hasColRow r1 "日" = true) (hr : hasColRow r1 "ラウンド" = true) :
    runInference fs (some v) [r1, r2, r3, r4, r5, r6]
      = (pdConcat
          ([r1, r2, r3, r4, r5].map
            (attachRow s1 (extract_threshold_from_filename p1).1 "1_5号艇着外予測数値" "1_5号艇着外予測"))
          [attachRow s6 (extract_threshold_from_filename p6).1 "6号艇着外予測数値" "6号艇着外予測" r6],
         Signal.ok) := by
  have hsub := course6Subset_six r1 r2 r3 r4 r5 r6 hc1 hc2 hc3 hc4 hc5 hc6
  have hd' : hasColRow (attachRow s1 (extract_threshold_from_filename p1).1
      "1_5号艇着外予測数値" "1_5号艇着外予測" r1) "日" = true :=
    hasColRow_attachRow_mono _ _ _ _ _ _ hd
  have hr' : hasColRow (attachRow s1 (extract_threshold_from_filename p1).1
      "1_5号艇着外予測数値" "1_5号艇着外予測" r1) "ラウンド" = true :=
    hasColRow_attachRow_mono _ _ _ _ _ _ hr
  unfold runInference
  rw [hsub]
  simp only [hv, h1, h6, inferBlock, attachPreds, List.isEmpty_cons, List.map_cons, List.map_nil,
    Bool.false_eq_true, if_false, hasCol_cons, hd', hr', and_self, if_true, List.take_succ_cons,
    List.take_zero]

theorem ifget_attachRow (s : Row → ℚ) (θ : ℚ) (nc fc : String) (r : Row) (c : String) (q : ℚ)
    (hc : getCell r c = Cell.num q) (h1 : ¬ c = nc) (h2 : ¬ c = fc) :
    (if hasColRow (attachRow s θ nc fc r) c then getCell (attachRow s θ nc fc r) c else Cell.na)
      = Cell.num q := by
  have hhas : hasColRow (attachRow s θ nc fc r) c = true :=
    hasColRow_attachRow_mono _ _ _ _ _ _ (hasColRow_of_isNum _ _ (by rw [hc]; rfl))
  rw [if_pos hhas, getCell_attachRow_ne _ _ _ _ _ _ h1 h2, hc]

/-- One reindexed scored row: numbers under its own model's two prediction
columns, NaN under the other model's two. -/
theorem reindex_attach_split (cs : List String) (s : Row → ℚ) (θ : ℚ)
    (ncA fcA ncB fcB : String) (r : Row)
    (hA : ncA ∈ cs) (hA2 : fcA ∈ cs) (hB : ncB ∈ cs) (hB2 : fcB ∈ cs)
    (hnoB1 : hasColRow r ncB = false) (hnoB2 : hasColRow r fcB = false)
    (hne1 : ¬ ncB = ncA) (hne2 : ¬ ncB = fcA)
    (hne3 : ¬ fcB = ncA) (hne4 : ¬ fcB = fcA) (hnefl : ¬ ncA = fcA) :
    (∃ q1 q2 : ℚ,
      getCell (reindexRow cs (attachRow s θ ncA fcA r)) ncA = Cell.num q1 ∧
      getCell (reindexRow cs (attachRow s θ ncA fcA r)) fcA = Cell.num q2) ∧
    getCell (reindexRow cs (attachRow s θ ncA fcA r)) ncB = Cell.na ∧
    getCell (reindexRow cs (attachRow s θ ncA fcA r)) fcB = Cell.na := by
  refine ⟨⟨s r, binFlag (s r) θ, ?_, ?_⟩, ?_, ?_⟩
  · rw [getCell_reindexRow _ _ _ hA, if_pos (hasColRow_attachRow_num s θ ncA fcA r),
      getCell_attachRow_num _ _ _ _ _ hnefl]
  · rw [getCell_reindexRow _ _ _ hA2, if_pos (hasColRow_attachRow_flag s θ ncA fcA r),
      getCell_attachRow_flag]
  · have hf : hasColRow (attachRow s θ ncA fcA r) ncB = false :=
      hasColRow_attachRow_false _ _ _ _ _ _ hnoB1 hne1 hne2
    rw [getCell_reindexRow _ _ _ hB, if_neg (by simp [hf])]
  · have hf : hasColRow (attachRow s θ ncA fcA r) fcB = false :=
      hasColRow_attachRow_false _ _ _ _ _ _ hnoB2 hne3 hne4
    rw [getCell_reindexRow _ _ _ hB2, if_neg (by simp [hf])]

theorem mem15N_unionCols (s1 s6 : Row → ℚ) (θ1 θ6 : ℚ) (r1 : Row) (rest : List Row) (r6 : Row) :
    "1_5号艇着外予測数値" ∈ unionCols
      ((r1 :: rest).map (attachRow s1 θ1 "1_5号艇着外予測数値" "1_5号艇着外予測"))
      [attachRow s6 θ6 "6号艇着外予測数値" "6号艇着外予測" r6] := by
  apply mem_unionCols_left
  simp only [List.map_cons, colsOf_cons]
  rw [← hasColRow_iff_mem]
  exact hasColRow_attachRow_num _ _ _ _ _

theorem mem15F_unionCols (s1 s6 : Row → ℚ) (θ1 θ6 : ℚ) (r1 : Row) (rest : List Row) (r6 : Row) :
    "1_5号艇着外予測" ∈ unionCols
      ((r1 :: rest).map (attachRow s1 θ1 "1_5号艇着外予測数値" "1_5号艇着外予測"))
      [attachRow s6 θ6 "6号艇着外予測数値" "6号艇着外予測" r6] := by
  apply mem_unionCols_left
  simp only [List.map_cons, colsOf_cons]
  rw [← hasColRow_iff_mem]
  exact hasColRow_attachRow_flag _ _ _ _ _

theorem mem6N_unionCols (s1 s6 : Row → ℚ) (θ1 θ6 : ℚ) (r1 : Row) (rest : List Row) (r6 : Row)
    (h1 : hasColRow r1 "6号艇着外予測数値" = false) :
    "6号艇着外予測数値" ∈ unionCols
      ((r1 :: rest).map (attachRow s1 θ1 "1_5号艇着外予測数値" "1_5号艇着外予測"))
      [attachRow s6 θ6 "6号艇着外予測数値" "6号艇着外予測" r6] := by
  have hf : hasColRow (attachRow s1 θ1 "1_5号艇着外予測数値" "1_5号艇着外予測" r1)
      "6号艇着外予測数値" = false :=
    hasColRow_attachRow_false _ _ _ _ _ _ h1 (by decide) (by decide)
  apply mem_unionCols_right
  · simp only [colsOf_cons]
    rw [← hasColRow_iff_mem]
    exact hasColRow_attachRow_num _ _ _ _ _
  · simp only [List.map_cons, colsOf_cons]
    rw [← hasColRow_iff_mem]
    simp [hf]

theorem mem6F_unionCols (s1 s6 : Row → ℚ) (θ1 θ6 : ℚ) (r1 : Row) (rest : List Row) (r6 : Row)
    (h1 : hasColRow r1 "6号艇着外予測" = false) :
    "6号艇着外予測" ∈ unionCols
      ((r1 :: rest).map (attachRow s1 θ1 "1_5号艇着外予測数値" "1_5号艇着外予測"))
      [attachRow s6 θ6 "6号艇着外予測数値" "6号艇着外予測" r6] := by
  have hf : hasColRow (attachRow s1 θ1 "1_5号艇着外予測数値" "1_5号艇着外予測" r1)
      "6号艇着外予測" = false :=
    hasColRow_attachRow_false _ _ _ _ _ _ h1 (by decide) (by decide)
  apply mem_unionCols_right
  · simp only [colsOf_cons]
    rw [← hasColRow_iff_mem]
    exact hasColRow_attachRow_flag _ _ _ _ _
  · simp only [List.map_cons, colsOf_cons]
    rw [← hasColRow_iff_mem]
    simp [hf]

/-- C1 as stated is false: the lanes-1-to-5 model scores the whole table —
the lane-6 row of the scored table carries a lanes-1-to-5 score too. -/
theorem C1_claim_counterexample :
    ∃ r ∈ (inferBlock fsBothC "P1" "P6" dfLanesC (course6Subset dfLanesC)).1,
      getCell r "コース" = Cell.num 6 ∧
      getCell r "1_5号艇着外予測数値" = Cell.num (6 / 10) := by
  with_unfolding_all decide

/-- C1 (amended): the dispatcher scores all 6 rows (including the lane-6 row)
against the lanes-1-to-5 artifact, scores exactly the lane-6 row — on the
slice taken before any predictions were attached — against the lane-6
artifact, and the reassembled result (first five scored rows concatenated
with the scored lane-6 subset) covers the 6 original rows exactly once,
lanes 1 through 6 in order. -/
theorem C1_lane_routing_amended (fs : FileSystem) (v p1 p6 : String) (s1 s6 : Row → ℚ)
    (r1 r2 r3 r4 r5 r6 : Row)
    (hv : modelPathsFor v = some (p1, p6))
    (h1 : fs p1 = some s1) (h6 : fs p6 = some s6)
    (hc1 : getCell r1 "コース" = Cell.num 1) (hc2 : getCell r2 "コース" = Cell.num 2)
    (hc3 : getCell r3 "コース" = Cell.num 3) (hc4 : getCell r4 "コース" = Cell.num 4)
    (hc5 : getCell r5 "コース" = Cell.num 5) (hc6 : getCell r6 "コース" = Cell.num 6)
    (hd : hasColRow r1 "日" = true) (hr : hasColRow r1 "ラウンド" = true) :
    (inferBlock fs p1 p6 [r1, r2, r3, r4, r5, r6] (course6Subset [r1, r2, r3, r4, r5, r6])).1
      = [r1, r2, r3, r4, r5, r6].map
          (attachRow s1 (extract_threshold_from_filename p1).1 "1_5号艇着外予測数値" "1_5号艇着外予測") ∧
    (inferBlock fs p1 p6 [r1, r2, r3, r4, r5, r6] (course6Subset [r1, r2, r3, r4, r5, r6])).2.1
      = [attachRow s6 (extract_threshold_from_filename p6).1 "6号艇着外予測数値" "6号艇着外予測" r6] ∧
    runInference fs (some v) [r1, r2, r3, r4, r5, r6]
      = (pdConcat
          ([r1, r2, r3, r4, r5].map
            (attachRow s1 (extract_threshold_from_filename p1).1 "1_5号艇着外予測数値" "1_5号艇着外予測"))
          [attachRow s6 (extract_threshold_from_filename p6).1 "6号艇着外予測数値" "6号艇着外予測" r6],
         Signal.ok) ∧
    (pdConcat
        ([r1, r2, r3, r4, r5].map
          (attachRow s1 (extract_threshold_from_filename p1).1 "1_5号艇着外予測数値" "1_5号艇着外予測"))
        [attachRow s6 (extract_threshold_from_filename p6).1 "6号艇着外予測数値" "6号艇着外予測" r6]).map
        (fun r => getCell r "コース")
      = [Cell.num 1, Cell.num 2, Cell.num 3, Cell.num 4, Cell.num 5, Cell.num 6] := by
  have hsub := course6Subset_six r1 r2 r3 r4 r5 r6 hc1 hc2 hc3 hc4 hc5 hc6
  have hblk : inferBlock fs p1 p6 [r1, r2, r3, r4, r5, r6] [r6]
      = ([r1, r2, r3, r4, r5, r6].map
          (attachRow s1 (extract_threshold_from_filename p1).1 "1_5号艇着外予測数値" "1_5号艇着外予測"),
         [r6].map
          (attachRow s6 (extract_threshold_from_filename p6).1 "6号艇着外予測数値" "6号艇着外予測"),
         false) := by
    simp only [inferBlock, h1, h6, attachPreds, List.isEmpty_cons, Bool.false_eq_true, if_false]
  refine ⟨?_, ?_,
    runInference_six fs v p1 p6 s1 s6 r1 r2 r3 r4 r5 r6 hv h1 h6 hc1 hc2 hc3 hc4 hc5 hc6 hd hr,
    ?_⟩
  · rw [hsub, hblk]
  · rw [hsub, hblk]
    rfl
  · have hma : "コース" ∈ colsOf ([r1, r2, r3, r4, r5].map
        (attachRow s1 (extract_threshold_from_filename p1).1
          "1_5号艇着外予測数値" "1_5号艇着外予測")) := by
      simp only [List.map_cons, colsOf_cons]
      rw [← hasColRow_iff_mem]
      exact hasColRow_attachRow_mono _ _ _ _ _ _ (hasColRow_of_isNum _ _ (by rw [hc1]; rfl))
    rw [getCell_pdConcat_map _ _ _ hma]
    have g1 := ifget_attachRow s1 (extract_threshold_from_filename p1).1 "1_5号艇着外予測数値"
      "1_5号艇着外予測" r1 "コース" 1 hc1 (by decide) (by decide)
    have g2 := ifget_attachRow s1 (extract_threshold_from_filename p1).1 "1_5号艇着外予測数値"
      "1_5号艇着外予測" r2 "コース" 2 hc2 (by decide) (by decide)
    have g3 := ifget_attachRow s1 (extract_threshold_from_filename p1).1 "1_5号艇着外予測数値"
      "1_5号艇着外予測" r3 "コース" 3 hc3 (by decide) (by decide)
    have g4 := ifget_attachRow s1 (extract_threshold_from_filename p1).1 "1_5号艇着外予測数値"
      "1_5号艇着外予測" r4 "コース" 4 hc4 (by decide) (by decide)
    have g5 := ifget_attachRow s1 (extract_threshold_from_filename p1).1 "1_5号艇着外予測数値"
      "1_5号艇着外予測" r5 "コース" 5 hc5 (by decide) (by decide)
    have g6 := ifget_attachRow s6 (extract_threshold_from_filename p6).1 "6号艇着外予測数値"
      "6号艇着外予測" r6 "コース" 6 hc6 (by decide) (by decide)
    simp only [List.map_cons, List.map_nil, g1, g2, g3, g4, g5, g6, List.cons_append,
      List.nil_append]

/-- Witness: concrete 6-lane table, the registered venue 江戸川, both
artifacts present — the lane-6 model scores exactly the unscored lane-6 row. -/
theorem C1_witness :
    (inferBlock fsBothC "モデル/一月用モデル/江戸川1_5_78910_456位モデル_0125_0.82.txt"
        "モデル/一月用モデル/江戸川6_78910_3456位モデル_0125_0.95.txt"
        dfLanesC (course6Subset dfLanesC)).2.1
      = [attachRow scoreLaneC
          (extract_threshold_from_filename
            "モデル/一月用モデル/江戸川6_78910_3456位モデル_0125_0.95.txt").1
          "6号艇着外予測数値" "6号艇着外予測" (laneRowC 6)] :=
  (C1_lane_routing_amended fsBothC "江戸川"
    "モデル/一月用モデル/江戸川1_5_78910_456位モデル_0125_0.82.txt"
    "モデル/一月用モデル/江戸川6_78910_3456位モデル_0125_0.95.txt"
    scoreLaneC scoreLaneC (laneRowC 1) (laneRowC 2) (laneRowC 3) (laneRowC 4) (laneRowC 5)
    (laneRowC 6)
    (by simp [modelPathsFor, MODEL_PATHS]) rfl rfl
    (by with_unfolding_all decide) (by with_unfolding_all decide) (by with_unfolding_all decide)
    (by with_unfolding_all decide) (by with_unfolding_all decide) (by with_unfolding_all decide)
    (by with_unfolding_all decide) (by with_unfolding_all decide)).2.1

/-- C10: in the reassembled final prediction table the first five rows (the
lanes scored by the lanes-1-to-5 model) carry numbers exactly in that model's
two prediction columns and NaN in the lane-6 model's two; the last row (the
lane-6 subset, sliced off before the lanes-1-to-5 predictions were attached)
carries numbers in the lane-6 columns and NaN in the lanes-1-to-5 columns. -/
theorem C10_prediction_split (fs : FileSystem) (v p1 p6 : String) (s1 s6 : Row → ℚ)
    (r1 r2 r3 r4 r5 r6 : Row)
    (hv : modelPathsFor v = some (p1, p6))
    (h1 : fs p1 = some s1) (h6 : fs p6 = some s6)
    (hc1 : getCell r1 "コース" = Cell.num 1) (hc2 : getCell r2 "コース" = Cell.num 2)
    (hc3 : getCell r3 "コース" = Cell.num 3) (hc4 : getCell r4 "コース" = Cell.num 4)
    (hc5 : getCell r5 "コース" = Cell.num 5) (hc6 : getCell r6 "コース" = Cell.num 6)
    (hd : hasColRow r1 "日" = true) (hr : hasColRow r1 "ラウンド" = true)
    (hno : ∀ r ∈ [r1, r2, r3, r4, r5, r6],
      hasColRow r "1_5号艇着外予測数値" = false ∧ hasColRow r "1_5号艇着外予測" = false ∧
      hasColRow r "6号艇着外予測数値" = false ∧ hasColRow r "6号艇着外予測" = false) :
    ((runInference fs (some v) [r1, r2, r3, r4, r5, r6]).1).length = 6 ∧
    (∀ r ∈ ((runInference fs (some v) [r1, r2, r3, r4, r5, r6]).1).take 5,
      (∃ q1 q2 : ℚ, getCell r "1_5号艇着外予測数値" = Cell.num q1 ∧
        getCell r "1_5号艇着外予測" = Cell.num q2) ∧
      getCell r "6号艇着外予測数値" = Cell.na ∧ getCell r "6号艇着外予測" = Cell.na) ∧
    (∀ r ∈ ((runInference fs (some v) [r1, r2, r3, r4, r5, r6]).1).drop 5,
      (∃ q1 q2 : ℚ, getCell r "6号艇着外予測数値" = Cell.num q1 ∧
        getCell r "6号艇着外予測" = Cell.num q2) ∧
      getCell r "1_5号艇着外予測数値" = Cell.na ∧ getCell r "1_5号艇着外予測" = Cell.na) := by
  have hrun := runInference_six fs v p1 p6 s1 s6 r1 r2 r3 r4 r5 r6 hv h1 h6
    hc1 hc2 hc3 hc4 hc5 hc6 hd hr
  have hno1 := hno r1 (by simp)
  have hno2 := hno r2 (by simp)
  have hno3 := hno r3 (by simp)
  have hno4 := hno r4 (by simp)
  have hno5 := hno r5 (by simp)
  have hno6 := hno r6 (by simp)
  have mA := mem15N_unionCols s1 s6 (extract_threshold_from_filename p1).1
    (extract_threshold_from_filename p6).1 r1 [r2, r3, r4, r5] r6
  have mB := mem15F_unionCols s1 s6 (extract_threshold_from_filename p1).1
    (extract_threshold_from_filename p6).1 r1 [r2, r3, r4, r5] r6
  have mC := mem6N_unionCols s1 s6 (extract_threshold_from_filename p1).1
    (extract_threshold_from_filename p6).1 r1 [r2, r3, r4, r5] r6 hno1.2.2.1
  have mD := mem6F_unionCols s1 s6 (extract_threshold_from_filename p1).1
    (extract_threshold_from_filename p6).1 r1 [r2, r3, r4, r5] r6 hno1.2.2.2
  rw [hrun]
  simp only [pdConcat, List.map_cons, List.map_nil, List.cons_append, List.nil_append,
    List.take_succ_cons, List.take_zero, List.drop_succ_cons, List.drop_zero]
  refine ⟨rfl, ?_, ?_⟩
  · intro r hr
    simp only [List.mem_cons, List.not_mem_nil, or_false] at hr
    rcases hr with rfl | rfl | rfl | rfl | rfl
    · exact reindex_attach_split _ s1 _ "1_5号艇着外予測数値" "1_5号艇着外予測"
        "6号艇着外予測数値" "6号艇着外予測" r1 mA mB mC mD hno1.2.2.1 hno1.2.2.2
        (by decide) (by decide) (by decide) (by decide) (by decide)
    · exact reindex_attach_split _ s1 _ "1_5号艇着外予測数値" "1_5号艇着外予測"
        "6号艇着外予測数値" "6号艇着外予測" r2 mA mB mC mD hno2.2.2.1 hno2.2.2.2
        (by decide) (by decide) (by decide) (by decide) (by decide)
    · exact reindex_attach_split _ s1 _ "1_5号艇着外予測数値" "1_5号艇着外予測"
        "6号艇着外予測数値" "6号艇着外予測" r3 mA mB mC mD hno3.2.2.1 hno3.2.2.2
        (by decide) (by decide) (by decide) (by decide) (by decide)
    · exact reindex_attach_split _ s1 _ "1_5号艇着外予測数値" "1_5号艇着外予測"
        "6号艇着外予測数値" "6号艇着外予測" r4 mA mB mC mD hno4.2.2.1 hno4.2.2.2
        (by decide) (by decide) (by decide) (by decide) (by decide)
    · exact reindex_attach_split _ s1 _ "1_5号艇着外予測数値" "1_5号艇着外予測"
        "6号艇着外予測数値" "6号艇着外予測" r5 mA mB mC mD hno5.2.2.1 hno5.2.2.2
        (by decide) (by decide) (by decide) (by decide) (by decide)
  · intro r hr
    simp only [List.mem_cons, List.not_mem_nil, or_false] at hr
    rcases hr with rfl
    exact reindex_attach_split _ s6 _ "6号艇着外予測数値" "6号艇着外予測"
      "1_5号艇着外予測数値" "1_5号艇着外予測" r6 mC mD mA mB hno6.1 hno6.2.1
      (by decide) (by decide) (by decide) (by decide) (by decide)

/-- Witness: on the concrete 6-lane table at venue 江戸川 the reassembled
prediction table has exactly the 6 original rows. -/
theorem C10_witness :
    ((runInference fsBothC (some "江戸川") dfLanesC).1).length = 6 :=
  (C10_prediction_split fsBothC "江戸川"
    "モデル/一月用モデル/江戸川1_5_78910_456位モデル_0125_0.82.txt"
    "モデル/一月用モデル/江戸川6_78910_3456位モデル_0125_0.95.txt"
    scoreLaneC scoreLaneC (laneRowC 1) (laneRowC 2) (laneRowC 3) (laneRowC 4) (laneRowC 5)
    (laneRowC 6)
    (by simp [modelPathsFor, MODEL_PATHS]) rfl rfl
    (by with_unfolding_all decide) (by with_unfolding_all decide) (by with_unfolding_all decide)
    (by with_unfolding_all decide) (by with_unfolding_all decide) (by with_unfolding_all decide)
    (by with_unfolding_all decide) (by with_unfolding_all decide)
    (by with_unfolding_all decide)).1

end BoatApp
